import Mathlib

/-!
# Token-bucket rate limiter: embedding of `src/main.cpp`

The service keeps one token bucket per client in a Redis hash and decides
admissions by running a Lua script inside Redis (`RateLimiter::lua_script`),
called from `RateLimiter::check_rate_limit`.

Modelling conventions.

* Lua numbers and C++ `double`s are exact rationals (`ℚ`): the development is
  about the arithmetic the code writes down, not about binary rounding.
* C++ `int` / `long long` inputs are integers (`ℤ`); the three
  `std::atomic<uint64_t>` counters are naturals incremented modulo `2 ^ 64`.
* The Redis keyspace is a function from keys to optional hashes.  A script runs
  as one function from keyspace to keyspace (Redis runs a script to completion
  before serving anything else).
* Redis drops a key when its TTL runs out; `expire_lapsed` is the store seen
  at a later clock reading, used where a claim spans more than the TTL.
* Whether the store adapter throws is an input of `check_rate_limit`
  (`fault`); a throwing call leaves the keyspace as it was.
* The two `/check` handlers take the outcome of reading the request body (the
  members read, or the message of the exception thrown) and the latency they
  measure as inputs; JSON parsing itself is not modelled.
-/

namespace CppRateLimiter

/-! ## The external store -/

/-- The hash kept under one bucket key: the two fields the script writes, and
the time-to-live last set on the key (`none`: the key has no expiry). -/
structure Bucket where
  tokens : ℚ
  last_refill : ℚ
  ttl : Option ℕ
deriving DecidableEq

/-- The keyspace of the store: each key is absent or holds a bucket hash. -/
abbrev Store := String → Option Bucket

/-- The store with no key at all. -/
def Store.empty : Store := fun _ => none

/-- Redis `HMGET key tokens last_refill`: the two field values, each nil when
the key is absent. -/
def HMGET (db : Store) (key : String) : Option ℚ × Option ℚ :=
  match db key with
  | none => (none, none)
  | some b => (some b.tokens, some b.last_refill)

/-- Redis `HMSET key tokens v1 last_refill v2`: sets both fields, creating the
hash when absent; the key keeps whatever expiry it had. -/
def HMSET (db : Store) (key : String) (tokens last_refill : ℚ) : Store :=
  fun k =>
    if k = key then
      some { tokens := tokens, last_refill := last_refill, ttl := (db key).bind Bucket.ttl }
    else db k

/-- Redis `EXPIRE key seconds`: sets the time-to-live of an existing key. -/
def EXPIRE (db : Store) (key : String) (seconds : ℕ) : Store :=
  fun k =>
    if k = key then (db key).map (fun b => { b with ttl := some seconds })
    else db k

/-- Conversion of a number to an integer by dropping its fractional part
(rounding toward zero), as done by a C cast from `double` to an integer type. -/
def truncate (x : ℚ) : ℤ :=
  if 0 ≤ x then ⌊x⌋ else ⌈x⌉

/-- Redis turns a Lua number in a script result into an integer reply with the
cast `(long long)`: the fractional part is dropped.  (The cast is undefined
in C for magnitudes of `2 ^ 63` and more; the model keeps the truncation.) -/
def lua_number_to_integer_reply (x : ℚ) : ℤ :=
  truncate x

/-- C++ `static_cast<uint64_t>` of a `double`: truncation toward zero.  The
cast is defined only when the truncated value lies in `[0, 2 ^ 64)`; outside
that range the model reduces modulo `2 ^ 64`. -/
def static_cast_uint64 (x : ℚ) : ℕ :=
  (truncate x % 2 ^ 64).toNat

/-- The value denoted by `std::to_string(double)`: the argument printed with
`%f`, that is rounded to six decimals (ties to even, as glibc does on the exact
value). -/
def to_string_double (x : ℚ) : ℚ :=
  let y := x * 1000000
  let f := ⌊y⌋
  let r := y - f
  let n : ℤ :=
    if r < 1 / 2 then f
    else if 1 / 2 < r then f + 1
    else if f % 2 = 0 then f else f + 1
  (n : ℚ) / 1000000

/-- Post-increment of a `std::atomic<uint64_t>` counter. -/
def atomic_incr (c : ℕ) : ℕ :=
  (c + 1) % 2 ^ 64

/-! ## The rate limiter -/

/-- The data members of `class RateLimiter`: the store handle (modelled by the
keyspace it reaches) and the three counters. -/
structure RateLimiter where
  redis : Store
  total_requests : ℕ
  allowed_requests : ℕ
  denied_requests : ℕ

namespace RateLimiter

/-- The Lua script of `RateLimiter::lua_script`, run against keyspace `db`
with `KEYS[1]` and the four `ARGV` already converted by `tonumber`.  Returns the
new keyspace and the Lua table `{allowed, tokens}`. -/
def lua_script (db : Store) (KEYS1 : String) (ARGV1 ARGV2 ARGV3 ARGV4 : ℚ) :
    Store × (ℚ × ℚ) :=
  let key := KEYS1
  let capacity := ARGV1
  let refill_rate := ARGV2
  let requested_tokens := ARGV3
  let now := ARGV4
  let bucket := HMGET db key
  let tokens := bucket.1.getD capacity
  let last_refill := bucket.2.getD now
  -- Calculate tokens to add based on time elapsed
  let time_elapsed := now - last_refill
  let tokens_to_add := time_elapsed * refill_rate / 1000000
  let tokens := min capacity (tokens + tokens_to_add)
  let allowed : ℚ := if tokens ≥ requested_tokens then 1 else 0
  let tokens := if tokens ≥ requested_tokens then tokens - requested_tokens else tokens
  -- Update bucket state
  let db := HMSET db key tokens now
  let db := EXPIRE db key 3600
  (db, (allowed, tokens))

/-- The call `redis.eval<std::vector<long long>>(lua_script, {key}, {...})`: when
the adapter throws (`fault`), an error and no effect on the keyspace;
otherwise the script runs and its two numbers come back as integer replies. -/
def eval (fault : Bool) (db : Store) (key : String) (a1 a2 a3 a4 : ℚ) :
    Except String (Store × (ℤ × ℤ)) :=
  if fault then
    Except.error "Redis error"
  else
    let out := lua_script db key a1 a2 a3 a4
    Except.ok (out.1, (lua_number_to_integer_reply out.2.1, lua_number_to_integer_reply out.2.2))

/-- The value of `struct RateLimitResult`. -/
structure RateLimitResult where
  allowed : Bool
  remaining_tokens : ℚ
  retry_after_ms : ℕ
deriving DecidableEq

/-- The method `RateLimiter::check_rate_limit`.  `fault` says whether the store
adapter throws during this call and `steady_now` is the reading of
`steady_clock` in microseconds; the result is the limiter after the call and
the returned decision. -/
def check_rate_limit (self : RateLimiter) (fault : Bool) (steady_now : ℤ)
    (client_id : String) (capacity : ℤ) (refill_rate : ℚ) (requested_tokens : ℤ) :
    RateLimiter × RateLimitResult :=
  let self := { self with total_requests := atomic_incr self.total_requests }
  let now := steady_now
  match eval fault self.redis ("rate_limit:" ++ client_id)
      capacity (to_string_double refill_rate) requested_tokens now with
  | Except.ok (db, result) =>
    let self := { self with redis := db }
    let allowed : Bool := result.1 == 1
    let remaining : ℚ := result.2
    let self :=
      if allowed then { self with allowed_requests := atomic_incr self.allowed_requests }
      else { self with denied_requests := atomic_incr self.denied_requests }
    -- Calculate retry after (when next token will be available)
    let retry_after : ℕ :=
      if remaining < capacity then static_cast_uint64 ((1 / refill_rate) * 1000) else 0
    (self, { allowed := allowed, remaining_tokens := remaining, retry_after_ms := retry_after })
  | Except.error _ =>
    -- Fail open - allow request if Redis is down
    (self, { allowed := true, remaining_tokens := capacity, retry_after_ms := 0 })

end RateLimiter

open RateLimiter

/-! ## Runs and observations -/

/-- The value `tokens` holds after line 36 of the script (the refill), from the
stored hash `st` of the key. -/
def post_refill (st : Option Bucket) (capacity refill_rate now : ℚ) : ℚ :=
  let tokens := (st.map Bucket.tokens).getD capacity
  let last_refill := (st.map Bucket.last_refill).getD now
  min capacity (tokens + (now - last_refill) * refill_rate / 1000000)

/-- One invocation of `check_rate_limit` with its environment: whether the
store adapter throws, the clock reading, and the four arguments. -/
structure Call where
  fault : Bool
  steady_now : ℤ
  client_id : String
  capacity : ℤ
  refill_rate : ℚ
  requested_tokens : ℤ

/-- The limiter and decision after performing call `c`. -/
def call (self : RateLimiter) (c : Call) : RateLimiter × RateLimitResult :=
  check_rate_limit self c.fault c.steady_now c.client_id c.capacity c.refill_rate
    c.requested_tokens

/-- The limiter after a sequence of calls, performed one after the other. -/
def run (self : RateLimiter) : List Call → RateLimiter
  | [] => self
  | c :: cs => run (call self c).1 cs

/-- The store as Redis presents it at clock reading `now` (microseconds): a
key whose time-to-live has run out is gone.  The script writes `last_refill`
and the TTL together, so a hash written at `last_refill` with a TTL of `t`
seconds is gone once `now` has reached `last_refill + t * 1000000`; the clock
of the service and the clock of the store are taken to run at the same rate. -/
def expire_lapsed (db : Store) (now : ℚ) : Store :=
  fun k =>
    match db k with
    | none => none
    | some b =>
      match b.ttl with
      | none => some b
      | some t => if b.last_refill + (t : ℚ) * 1000000 ≤ now then none else some b

/-- Invariant of one key of the store at clock reading `t`: when the key
holds a bucket, its tokens are not negative and its `last_refill` is not
later than `t`. -/
def BucketOk (db : Store) (t : ℚ) (key : String) : Prop :=
  ∀ b, db key = some b → 0 ≤ b.tokens ∧ b.last_refill ≤ t

/-! ## Metrics and the request shell -/

/-- The JSON object returned by `RateLimiter::get_metrics`. -/
structure Metrics where
  total_requests : ℕ
  allowed_requests : ℕ
  denied_requests : ℕ
  allow_rate : ℚ
deriving DecidableEq

/-- The method `RateLimiter::get_metrics`. -/
def RateLimiter.get_metrics (self : RateLimiter) : Metrics :=
  let total := self.total_requests
  { total_requests := total
    allowed_requests := self.allowed_requests
    denied_requests := self.denied_requests
    allow_rate := if total > 0 then (self.allowed_requests : ℚ) / (total : ℚ) else 1 }

/-- The members of the JSON body that the `POST /check` handler reads, each
`none` when the body does not have it. -/
structure CheckRequest where
  client_id : Option String
  capacity : Option ℤ
  refill_rate : Option ℚ
  tokens : Option ℤ

/-- The JSON content of a response of the two `/check` handlers: the decision
of `POST /check`, the decision of `GET /check`, or an error message. -/
inductive Content where
  | decision (allowed : Bool) (remaining_tokens : ℚ) (retry_after_ms : ℕ) (latency_us : ℤ)
  | load_test (allowed : Bool) (remaining : ℚ) (latency_us : ℤ)
  | error (what : String)
deriving DecidableEq

/-- What a handler leaves in `httplib::Response`: the status and the content. -/
structure Response where
  status : ℕ
  content : Content
deriving DecidableEq

/-- The handler of `POST /check`.  `request_body` is the outcome of
`json::parse` and of reading the four members: the members read, or the
message of the exception thrown while doing so.  `fault` and `steady_now` are
the environment of `check_rate_limit`, `duration_us` the latency the handler
measures. -/
def post_check (limiter : RateLimiter) (fault : Bool) (steady_now duration_us : ℤ)
    (request_body : Except String CheckRequest) : RateLimiter × Response :=
  match request_body with
  | Except.ok body =>
    let client_id := body.client_id.getD "default"
    let capacity := body.capacity.getD 100
    let refill_rate := body.refill_rate.getD 10
    let tokens := body.tokens.getD 1
    let out := check_rate_limit limiter fault steady_now client_id capacity refill_rate tokens
    let result := out.2
    (out.1,
      { status := if result.allowed then 200 else 429
        content := Content.decision result.allowed result.remaining_tokens
          result.retry_after_ms duration_us })
  | Except.error what =>
    (limiter, { status := 400, content := Content.error what })

/-- The handler of `GET /check`: fixed parameters for load testing. -/
def get_check (limiter : RateLimiter) (fault : Bool) (steady_now duration_us : ℤ) :
    RateLimiter × Response :=
  let client_id := "load_test"
  let out := check_rate_limit limiter fault steady_now client_id 1000 100 1
  let result := out.2
  (out.1,
    { status := if result.allowed then 200 else 429
      content := Content.load_test result.allowed result.remaining_tokens duration_us })

/-! ## Basic facts about the script and its caller -/

theorem lua_script_result (db : Store) (key : String) (c r k now : ℚ) :
    (lua_script db key c r k now).2 =
      (if post_refill (db key) c r now ≥ k then 1 else 0,
       if post_refill (db key) c r now ≥ k then post_refill (db key) c r now - k
       else post_refill (db key) c r now) := by
  unfold lua_script post_refill HMGET
  cases h : db key <;> simp [h]

theorem lua_script_store_key (db : Store) (key : String) (c r k now : ℚ) :
    (lua_script db key c r k now).1 key =
      some { tokens := (lua_script db key c r k now).2.2, last_refill := now, ttl := some 3600 } := by
  unfold lua_script EXPIRE HMSET
  simp

theorem lua_script_store_other (db : Store) (key : String) (c r k now : ℚ) (k2 : String)
    (h : k2 ≠ key) : (lua_script db key c r k now).1 k2 = db k2 := by
  unfold lua_script EXPIRE HMSET
  simp [h]

theorem truncate_one : truncate 1 = 1 := by
  simp [truncate]

theorem truncate_zero : truncate 0 = 0 := by
  simp [truncate]

theorem truncate_intCast (n : ℤ) : truncate (n : ℚ) = n := by
  unfold truncate
  split <;> simp

theorem truncate_nonneg {x : ℚ} (h : 0 ≤ x) : 0 ≤ truncate x := by
  unfold truncate
  rw [if_pos h]
  exact Int.floor_nonneg.mpr h

theorem truncate_le_of_nonneg {x : ℚ} (h : 0 ≤ x) : (truncate x : ℚ) ≤ x := by
  unfold truncate
  rw [if_pos h]
  exact Int.floor_le x

theorem check_rate_limit_ok (self : RateLimiter) (now : ℤ) (cid : String) (c : ℤ) (r : ℚ)
    (k : ℤ) :
    check_rate_limit self false now cid c r k =
      (let out := lua_script self.redis ("rate_limit:" ++ cid) c (to_string_double r) k now
       let allowed : Bool := truncate out.2.1 == 1
       ({ redis := out.1
          total_requests := atomic_incr self.total_requests
          allowed_requests :=
            if allowed then atomic_incr self.allowed_requests else self.allowed_requests
          denied_requests :=
            if allowed then self.denied_requests else atomic_incr self.denied_requests },
        { allowed := allowed
          remaining_tokens := (truncate out.2.2 : ℤ)
          retry_after_ms :=
            if ((truncate out.2.2 : ℤ) : ℚ) < c then static_cast_uint64 ((1 / r) * 1000)
            else 0 })) := by
  unfold check_rate_limit eval lua_number_to_integer_reply
  simp only [Bool.false_eq_true, if_false]
  split <;> rfl

theorem check_rate_limit_fault (self : RateLimiter) (now : ℤ) (cid : String) (c : ℤ) (r : ℚ)
    (k : ℤ) :
    check_rate_limit self true now cid c r k =
      ({ self with total_requests := atomic_incr self.total_requests },
       { allowed := true, remaining_tokens := c, retry_after_ms := 0 }) := by
  unfold check_rate_limit eval
  simp

/-! ## C1: the contract of the atomic script -/

/-- C1: for every stored state of the key (absent, or a hash with `tokens_prev`
and `last_refill_prev`) and every call with `now_us ≥ last_refill_prev`, the
script computes `tokens = min(capacity, tokens_prev + (now_us -
last_refill_prev) / 1000000 * refill_rate)` (an absent key counting as
`tokens_prev = capacity`, `last_refill_prev = now_us`), returns `allowed = 1`
exactly when `tokens ≥ requested` (and `0` otherwise), stores `tokens -
requested` when allowed and the post-refill `tokens` when denied, and stores
`last_refill = now_us`. -/
theorem C1_script_refill_and_decision (db : Store) (key : String)
    (capacity refill_rate requested now_us : ℚ)
    (_hclock : ∀ b, db key = some b → b.last_refill ≤ now_us) :
    let tokens_prev := match db key with
      | none => capacity
      | some b => b.tokens
    let last_refill_prev := match db key with
      | none => now_us
      | some b => b.last_refill
    let tokens :=
      min capacity (tokens_prev + (now_us - last_refill_prev) / 1000000 * refill_rate)
    let out := lua_script db key capacity refill_rate requested now_us
    (out.2.1 = 1 ↔ tokens ≥ requested) ∧ (out.2.1 = 0 ↔ ¬ tokens ≥ requested)
      ∧ (tokens ≥ requested →
          (out.1 key).map Bucket.tokens = some (tokens - requested)
            ∧ out.2.2 = tokens - requested)
      ∧ (¬ tokens ≥ requested →
          (out.1 key).map Bucket.tokens = some tokens ∧ out.2.2 = tokens)
      ∧ (out.1 key).map Bucket.last_refill = some now_us := by
  intro tokens_prev last_refill_prev tokens out
  have hpost : post_refill (db key) capacity refill_rate now_us = tokens := by
    simp only [post_refill, tokens, tokens_prev, last_refill_prev]
    cases db key <;> simp [mul_div_right_comm]
  have hres := lua_script_result db key capacity refill_rate requested now_us
  have hst := lua_script_store_key db key capacity refill_rate requested now_us
  rw [hpost] at hres
  have h1 : out.2.1 = if tokens ≥ requested then 1 else 0 := by
    simp only [out, hres]
  have h2 : out.2.2 = if tokens ≥ requested then tokens - requested else tokens := by
    simp only [out, hres]
  have h3 : out.1 key = some { tokens := out.2.2, last_refill := now_us, ttl := some 3600 } :=
    hst
  refine ⟨?_, ?_, ?_, ?_, ?_⟩
  · rw [h1]; split <;> simp [*]
  · rw [h1]; split <;> simp [*]
  · intro h; rw [h3, h2, if_pos h]; simp
  · intro h; rw [h3, h2, if_neg h]; simp
  · rw [h3]; simp

/-- Witness for C1: the exhausted bucket of capacity 10 refilled at 1 token per
second, asked for 2 tokens 2.5 s later. -/
theorem C1_script_refill_and_decision_witness :
    (∀ b, (fun k => if k = "rate_limit:A" then some (Bucket.mk 0 0 (some 3600)) else none :
        Store) "rate_limit:A" = some b → b.last_refill ≤ 2500000)
      ∧ (lua_script (fun k => if k = "rate_limit:A" then some (Bucket.mk 0 0 (some 3600))
            else none) "rate_limit:A" 10 1 2 2500000).2 = (1, 1 / 2) := by
  have hc : ∀ b, (fun k => if k = "rate_limit:A" then some (Bucket.mk 0 0 (some 3600))
      else none : Store) "rate_limit:A" = some b → b.last_refill ≤ 2500000 := by
    intro b hb
    simp at hb
    subst hb
    norm_num
  refine ⟨hc, ?_⟩
  have h := C1_script_refill_and_decision
    (fun k => if k = "rate_limit:A" then some (Bucket.mk 0 0 (some 3600)) else none)
    "rate_limit:A" 10 1 2 2500000 hc
  simp only [if_true] at h
  obtain ⟨h1, -, h3, -, -⟩ := h
  have hge : min (10 : ℚ) (0 + (2500000 - 0) / 1000000 * 1) ≥ 2 := by norm_num
  have e1 := h1.mpr hge
  have e2 := (h3 hge).2
  rw [Prod.ext_iff]
  refine ⟨e1, ?_⟩
  rw [e2]
  norm_num

/-! ## Counters -/

theorem atomic_incr_of_lt {n : ℕ} (h : n + 1 < 2 ^ 64) : atomic_incr n = n + 1 := by
  unfold atomic_incr
  exact Nat.mod_eq_of_lt h

theorem call_total (s : RateLimiter) (c : Call) :
    (call s c).1.total_requests = atomic_incr s.total_requests := by
  unfold call
  cases hf : c.fault
  · rw [check_rate_limit_ok]
  · rw [check_rate_limit_fault]

theorem call_allowed_denied (s : RateLimiter) (c : Call) :
    ((call s c).1.allowed_requests, (call s c).1.denied_requests) =
      if c.fault = true then (s.allowed_requests, s.denied_requests)
      else if (call s c).2.allowed = true then
        (atomic_incr s.allowed_requests, s.denied_requests)
      else (s.allowed_requests, atomic_incr s.denied_requests) := by
  unfold call
  cases hf : c.fault
  · rw [check_rate_limit_ok]
    simp only [Bool.false_eq_true, if_false]
    split <;> simp_all
  · rw [check_rate_limit_fault]
    simp

theorem run_append (s : RateLimiter) (cs : List Call) (c : Call) :
    run s (cs ++ [c]) = (call (run s cs) c).1 := by
  induction cs generalizing s with
  | nil => rfl
  | cons d ds ih => simp only [List.cons_append, run]; exact ih _

/-- Counter state reached from zeroed counters by fewer than `2 ^ 64` calls:
`total` counts the calls and `allowed + denied` the calls that did not fail
open. -/
theorem run_counters (db : Store) (cs : List Call) (hlen : cs.length < 2 ^ 64) :
    (run ⟨db, 0, 0, 0⟩ cs).total_requests = cs.length
      ∧ (run ⟨db, 0, 0, 0⟩ cs).allowed_requests + (run ⟨db, 0, 0, 0⟩ cs).denied_requests
          = (cs.filter (fun d => !d.fault)).length := by
  induction cs using List.reverseRecOn with
  | nil => simp [run]
  | append_singleton ds d ih =>
    have hlen2 : ds.length + 1 < 2 ^ 64 := by simpa using hlen
    obtain ⟨ht, had⟩ := ih (by omega)
    have hfl : (ds.filter (fun d => !d.fault)).length ≤ ds.length := List.length_filter_le _ _
    rw [run_append]
    have hpair := call_allowed_denied (run ⟨db, 0, 0, 0⟩ ds) d
    rw [Prod.ext_iff] at hpair
    obtain ⟨ha, hd⟩ := hpair
    simp only at ha hd
    refine ⟨?_, ?_⟩
    · rw [call_total, ht, atomic_incr_of_lt hlen2, List.length_append, List.length_singleton]
    · rw [ha, hd, List.filter_append, List.length_append]
      cases hf : d.fault
      · simp only [Bool.false_eq_true, if_false]
        split
        · rw [atomic_incr_of_lt (by omega)]
          simp [hf]; omega
        · rw [atomic_incr_of_lt (by omega)]
          simp [hf]; omega
      · simp [hf]; omega

/-! ## C2: fail-open -/

/-- C2, counterexample: with the store down throughout, `2 ^ 64 - 1` calls
bring `total_requests` to `2 ^ 64 - 1`; the next failing call returns the
fail-open decision but leaves `total_requests` at `0`, not one higher. -/
theorem C2_counterexample_total_wraps :
    (run ⟨Store.empty, 0, 0, 0⟩
        (List.replicate (2 ^ 64 - 1) ⟨true, 0, "A", 100, 10, 1⟩)).total_requests
        = 2 ^ 64 - 1
      ∧ (check_rate_limit
          (run ⟨Store.empty, 0, 0, 0⟩ (List.replicate (2 ^ 64 - 1) ⟨true, 0, "A", 100, 10, 1⟩))
          true 0 "A" 100 10 1).1.total_requests = 0 := by
  have hlen : (List.replicate (2 ^ 64 - 1) (Call.mk true 0 "A" 100 10 1)).length < 2 ^ 64 := by
    rw [List.length_replicate]
    norm_num
  have h := (run_counters Store.empty _ hlen).1
  rw [List.length_replicate] at h
  refine ⟨h, ?_⟩
  rw [check_rate_limit_fault]
  show atomic_incr _ = 0
  rw [h]
  unfold atomic_incr
  norm_num

/-- C2 (amended): whenever the store adapter raises during `check_rate_limit`,
for every client and every parameter triple the returned decision is exactly
`{allowed: true, remaining: capacity, retry_after_ms: 0}`, `total_requests`
goes up by one modulo `2 ^ 64` (by exactly one whenever it is below
`2 ^ 64 - 1`), `allowed_requests` and `denied_requests` are unchanged, and
the store is left as it was. -/
theorem C2_fail_open (self : RateLimiter) (now : ℤ) (client_id : String) (capacity : ℤ)
    (refill_rate : ℚ) (requested : ℤ) :
    (check_rate_limit self true now client_id capacity refill_rate requested).2
        = { allowed := true, remaining_tokens := capacity, retry_after_ms := 0 }
      ∧ (check_rate_limit self true now client_id capacity refill_rate requested).1.total_requests
          = (self.total_requests + 1) % 2 ^ 64
      ∧ (self.total_requests + 1 < 2 ^ 64 →
          (check_rate_limit self true now client_id capacity refill_rate
            requested).1.total_requests = self.total_requests + 1)
      ∧ (check_rate_limit self true now client_id capacity refill_rate
            requested).1.allowed_requests = self.allowed_requests
      ∧ (check_rate_limit self true now client_id capacity refill_rate
            requested).1.denied_requests = self.denied_requests
      ∧ (check_rate_limit self true now client_id capacity refill_rate requested).1.redis
          = self.redis := by
  rw [check_rate_limit_fault]
  refine ⟨rfl, rfl, ?_, rfl, rfl, rfl⟩
  intro h
  exact atomic_incr_of_lt h

/-! ## C3: residual bounds -/

theorem to_string_double_nonneg {x : ℚ} (h : 0 ≤ x) : 0 ≤ to_string_double x := by
  unfold to_string_double
  have hf : (0 : ℤ) ≤ ⌊x * 1000000⌋ := Int.floor_nonneg.mpr (by positivity)
  have hf2 : (0 : ℚ) ≤ (⌊x * 1000000⌋ : ℤ) := by exact_mod_cast hf
  simp only
  apply div_nonneg _ (by norm_num)
  split_ifs <;> push_cast <;> linarith

theorem post_refill_le (st : Option Bucket) (c r now : ℚ) : post_refill st c r now ≤ c :=
  min_le_left _ _

theorem post_refill_nonneg (st : Option Bucket) (c r now : ℚ) (hc : 0 ≤ c) (hr : 0 ≤ r)
    (hst : ∀ b, st = some b → 0 ≤ b.tokens ∧ b.last_refill ≤ now) :
    0 ≤ post_refill st c r now := by
  unfold post_refill
  cases st with
  | none => simp [hc]
  | some b =>
    obtain ⟨h1, h2⟩ := hst b rfl
    simp only [Option.map_some', Option.getD_some]
    apply le_min hc
    have : 0 ≤ (now - b.last_refill) * r / 1000000 :=
      div_nonneg (mul_nonneg (by linarith) hr) (by norm_num)
    linarith

/-- Tokens written by the script lie in `[0, capacity]` when the refilled
amount is not negative and the request is not negative. -/
theorem lua_script_tokens_bounds (db : Store) (key : String) (c r k now : ℚ)
    (hk : 0 ≤ k) (hpost : 0 ≤ post_refill (db key) c r now) :
    0 ≤ (lua_script db key c r k now).2.2 ∧ (lua_script db key c r k now).2.2 ≤ c := by
  rw [lua_script_result]
  have hle := post_refill_le (db key) c r now
  simp only
  split_ifs with h
  · constructor <;> linarith
  · exact ⟨hpost, hle⟩

theorem call_preserves_BucketOk (s : RateLimiter) (d : Call) (t : ℚ) (key : String)
    (hcap : 0 ≤ d.capacity) (hrate : 0 ≤ d.refill_rate) (hreq : 0 ≤ d.requested_tokens)
    (ht : t ≤ d.steady_now) (hok : BucketOk s.redis t key) :
    BucketOk (call s d).1.redis d.steady_now key := by
  unfold call
  cases hf : d.fault
  · rw [check_rate_limit_ok]
    simp only
    by_cases hkey : key = "rate_limit:" ++ d.client_id
    · subst hkey
      intro b hb
      rw [lua_script_store_key] at hb
      injection hb with hb
      subst hb
      simp only [le_refl, and_true]
      refine (lua_script_tokens_bounds _ _ _ _ _ _ (by exact_mod_cast hreq) ?_).1
      apply post_refill_nonneg _ _ _ _ (by exact_mod_cast hcap) (to_string_double_nonneg hrate)
      intro b hb
      obtain ⟨h1, h2⟩ := hok b hb
      exact ⟨h1, le_trans h2 ht⟩
    · intro b hb
      rw [lua_script_store_other _ _ _ _ _ _ _ hkey] at hb
      obtain ⟨h1, h2⟩ := hok b hb
      exact ⟨h1, le_trans h2 ht⟩
  · rw [check_rate_limit_fault]
    intro b hb
    obtain ⟨h1, h2⟩ := hok b hb
    exact ⟨h1, le_trans h2 ht⟩

/-- C3: residual bounds.  Start from any store in which the buckets of the
clients concerned are absent or hold `tokens ≥ 0` with `last_refill` not
later than `t0` (in particular from the empty store), and perform any sequence
of calls with valid parameters (`capacity ≥ 1`, `refill_rate > 0`,
`1 ≤ requested ≤ capacity`, chosen anew by each call) under a non-decreasing
clock.  Then every successful evaluation stores `tokens` with
`0 ≤ tokens ≤ capacity` and reports `remaining_tokens` with
`0 ≤ remaining_tokens ≤ capacity`, for the capacity of that call. -/
theorem C3_residual_bounds (self : RateLimiter) (t0 : ℤ) (cs : List Call) (c : Call)
    (hvalid : ∀ d ∈ cs ++ [c], 1 ≤ d.capacity ∧ 0 < d.refill_rate
      ∧ 1 ≤ d.requested_tokens ∧ d.requested_tokens ≤ d.capacity)
    (hclock : List.Chain (fun a b => a ≤ b) t0 ((cs ++ [c]).map Call.steady_now))
    (hstore : ∀ d ∈ cs ++ [c], ∀ b, self.redis ("rate_limit:" ++ d.client_id) = some b →
      0 ≤ b.tokens ∧ b.last_refill ≤ t0)
    (hok : c.fault = false) :
    (∃ b, (call (run self cs) c).1.redis ("rate_limit:" ++ c.client_id) = some b
        ∧ 0 ≤ b.tokens ∧ b.tokens ≤ c.capacity)
      ∧ 0 ≤ (call (run self cs) c).2.remaining_tokens
      ∧ (call (run self cs) c).2.remaining_tokens ≤ c.capacity := by
  induction cs generalizing self t0 with
  | nil =>
    simp only [List.nil_append, List.mem_singleton, forall_eq, List.map_cons, List.map_nil,
      List.chain_cons, List.Chain.nil, and_true] at hvalid hclock hstore
    obtain ⟨hcap, hrate, hreq, hreqcap⟩ := hvalid
    have hpost : 0 ≤ post_refill (self.redis ("rate_limit:" ++ c.client_id)) c.capacity
        (to_string_double c.refill_rate) c.steady_now := by
      apply post_refill_nonneg _ _ _ _ (by exact_mod_cast (by omega : (0 : ℤ) ≤ c.capacity))
        (to_string_double_nonneg hrate.le)
      intro b hb
      obtain ⟨h1, h2⟩ := hstore b hb
      exact ⟨h1, le_trans h2 (by exact_mod_cast hclock)⟩
    have hb := lua_script_tokens_bounds self.redis ("rate_limit:" ++ c.client_id) c.capacity
      (to_string_double c.refill_rate) c.requested_tokens c.steady_now
      (by exact_mod_cast (by omega : (0 : ℤ) ≤ c.requested_tokens)) hpost
    simp only [run, call, hok, check_rate_limit_ok]
    refine ⟨⟨_, lua_script_store_key _ _ _ _ _ _, hb.1, hb.2⟩, ?_, ?_⟩
    · exact_mod_cast truncate_nonneg hb.1
    · exact le_trans (truncate_le_of_nonneg hb.1) hb.2
  | cons d ds ih =>
    simp only [List.cons_append, List.map_cons, List.chain_cons] at hclock
    obtain ⟨hd, hrest⟩ := hclock
    have hvd := hvalid d (by simp)
    simp only [run]
    apply ih (call self d).1 d.steady_now
    · intro e he
      exact hvalid e (by simp only [List.cons_append, List.mem_cons]; exact Or.inr he)
    · exact hrest
    · intro e he
      have hpre : BucketOk self.redis t0 ("rate_limit:" ++ e.client_id) :=
        hstore e (by simp only [List.cons_append, List.mem_cons]; exact Or.inr he)
      exact call_preserves_BucketOk self d t0 _ (by omega) hvd.2.1.le (by omega)
        (by exact_mod_cast hd) hpre

/-- Witness for C3: three calls of one client from the empty store, each with
another capacity. -/
theorem C3_residual_bounds_witness :
    0 ≤ (call (run ⟨Store.empty, 0, 0, 0⟩
          [⟨false, 0, "A", 10, 1, 3⟩, ⟨false, 1000000, "A", 5, 1, 1⟩])
        ⟨false, 2000000, "A", 8, 2, 2⟩).2.remaining_tokens
      ∧ (call (run ⟨Store.empty, 0, 0, 0⟩
          [⟨false, 0, "A", 10, 1, 3⟩, ⟨false, 1000000, "A", 5, 1, 1⟩])
        ⟨false, 2000000, "A", 8, 2, 2⟩).2.remaining_tokens ≤ 8 := by
  have h := C3_residual_bounds ⟨Store.empty, 0, 0, 0⟩ 0
    [⟨false, 0, "A", 10, 1, 3⟩, ⟨false, 1000000, "A", 5, 1, 1⟩]
    ⟨false, 2000000, "A", 8, 2, 2⟩
    (by
      intro d hd
      simp only [List.cons_append, List.nil_append, List.mem_cons, List.mem_singleton,
        List.not_mem_nil, or_false] at hd
      rcases hd with rfl | rfl | rfl <;> norm_num)
    (by simp [List.chain_cons])
    (by intro d _ b hb; simp [Store.empty] at hb)
    rfl
  simpa using h.2

/-! ## C5: one evaluation is one step -/

theorem check_rate_limit_allowed (self : RateLimiter) (now : ℤ) (cid : String) (c : ℤ)
    (r : ℚ) (k : ℤ) :
    (check_rate_limit self false now cid c r k).2.allowed
      = decide ((k : ℚ) ≤ post_refill (self.redis ("rate_limit:" ++ cid)) c
          (to_string_double r) now) := by
  rw [check_rate_limit_ok]
  simp only [lua_script_result]
  by_cases h : (k : ℚ) ≤ post_refill (self.redis ("rate_limit:" ++ cid)) c
      (to_string_double r) now
  · simp [h, truncate_one]
  · simp [h, truncate_zero]

theorem check_rate_limit_store (self : RateLimiter) (now : ℤ) (cid : String) (c : ℤ)
    (r : ℚ) (k : ℤ) :
    (check_rate_limit self false now cid c r k).1.redis ("rate_limit:" ++ cid)
      = some
          { tokens :=
              if (k : ℚ) ≤ post_refill (self.redis ("rate_limit:" ++ cid)) c
                  (to_string_double r) now
              then post_refill (self.redis ("rate_limit:" ++ cid)) c (to_string_double r) now - k
              else post_refill (self.redis ("rate_limit:" ++ cid)) c (to_string_double r) now
            last_refill := now
            ttl := some 3600 } := by
  rw [check_rate_limit_ok]
  simp only
  rw [lua_script_store_key, lua_script_result]

theorem check_rate_limit_remaining (self : RateLimiter) (now : ℤ) (cid : String) (c : ℤ)
    (r : ℚ) (k : ℤ) :
    (check_rate_limit self false now cid c r k).2.remaining_tokens
      = (truncate
          (if (k : ℚ) ≤ post_refill (self.redis ("rate_limit:" ++ cid)) c
              (to_string_double r) now
            then post_refill (self.redis ("rate_limit:" ++ cid)) c (to_string_double r) now - k
            else post_refill (self.redis ("rate_limit:" ++ cid)) c (to_string_double r) now) : ℤ) := by
  rw [check_rate_limit_ok]
  simp only
  rw [lua_script_result]

/-- A second evaluation at the same instant, after an admitted request of
`k1 > 0` tokens, finds `t - k1` tokens. -/
theorem post_refill_after_admit (st : Option Bucket) (c r now k1 : ℚ) (ttl : Option ℕ)
    (hk : 0 ≤ k1) :
    post_refill (some ⟨post_refill st c r now - k1, now, ttl⟩) c r now
      = post_refill st c r now - k1 := by
  have hle := post_refill_le st c r now
  simp only [post_refill, Option.map_some', Option.getD_some, sub_self, zero_mul, zero_div,
    add_zero]
  apply min_eq_right
  have : post_refill st c r now ≤ c := hle
  simp only [post_refill] at this
  linarith

/-- C5: within `check_rate_limit` the store changes by exactly one evaluation
of the script (read, refill, test and write-back are that one step), so two
admissions against one key take effect one after the other.  When the
bucket holds `t` tokens after the refill and two requests `k1 ≤ t`, `k2 ≤ t`
with `k1 + k2 > t` are evaluated at the same instant, the one that runs
first is admitted and the other is denied, in either order. -/
theorem C5_same_instant_admits_exactly_one (self : RateLimiter) (now : ℤ)
    (client_id : String) (capacity : ℤ) (refill_rate : ℚ) (k1 k2 : ℤ)
    (h1 : (k1 : ℚ) ≤ post_refill (self.redis ("rate_limit:" ++ client_id)) capacity
      (to_string_double refill_rate) now)
    (h2 : (k2 : ℚ) ≤ post_refill (self.redis ("rate_limit:" ++ client_id)) capacity
      (to_string_double refill_rate) now)
    (h12 : post_refill (self.redis ("rate_limit:" ++ client_id)) capacity
      (to_string_double refill_rate) now < k1 + k2) :
    (check_rate_limit self false now client_id capacity refill_rate k1).1.redis
        = (lua_script self.redis ("rate_limit:" ++ client_id) capacity
            (to_string_double refill_rate) k1 now).1
      ∧ ((check_rate_limit self false now client_id capacity refill_rate k1).2.allowed = true
        ∧ (check_rate_limit
            (check_rate_limit self false now client_id capacity refill_rate k1).1
            false now client_id capacity refill_rate k2).2.allowed = false)
      ∧ ((check_rate_limit self false now client_id capacity refill_rate k2).2.allowed = true
        ∧ (check_rate_limit
            (check_rate_limit self false now client_id capacity refill_rate k2).1
            false now client_id capacity refill_rate k1).2.allowed = false) := by
  have hk1 : (0 : ℚ) ≤ k1 := by linarith
  have hk2 : (0 : ℚ) ≤ k2 := by linarith
  refine ⟨by rw [check_rate_limit_ok], ⟨?_, ?_⟩, ⟨?_, ?_⟩⟩
  · rw [check_rate_limit_allowed]
    simpa using h1
  · rw [check_rate_limit_allowed, check_rate_limit_store, if_pos h1,
      post_refill_after_admit _ _ _ _ _ _ hk1]
    simp only [decide_eq_false_iff_not, not_le]
    linarith
  · rw [check_rate_limit_allowed]
    simpa using h2
  · rw [check_rate_limit_allowed, check_rate_limit_store, if_pos h2,
      post_refill_after_admit _ _ _ _ _ _ hk2]
    simp only [decide_eq_false_iff_not, not_le]
    linarith

/-- Witness for C5: a full bucket of 10 tokens and two requests, of 6 and of 7
tokens, at the same instant. -/
theorem C5_same_instant_admits_exactly_one_witness :
    ((check_rate_limit ⟨Store.empty, 0, 0, 0⟩ false 0 "A" 10 1 6).2.allowed = true
        ∧ (check_rate_limit (check_rate_limit ⟨Store.empty, 0, 0, 0⟩ false 0 "A" 10 1 6).1
            false 0 "A" 10 1 7).2.allowed = false)
      ∧ ((check_rate_limit ⟨Store.empty, 0, 0, 0⟩ false 0 "A" 10 1 7).2.allowed = true
        ∧ (check_rate_limit (check_rate_limit ⟨Store.empty, 0, 0, 0⟩ false 0 "A" 10 1 7).1
            false 0 "A" 10 1 6).2.allowed = false) :=
  (C5_same_instant_admits_exactly_one ⟨Store.empty, 0, 0, 0⟩ 0 "A" 10 1 6 7
    (by norm_num [post_refill, Store.empty])
    (by norm_num [post_refill, Store.empty])
    (by norm_num [post_refill, Store.empty])).2

/-! ## Evaluation lemmas for concrete inputs -/

theorem to_string_double_intCast (n : ℤ) : to_string_double (n : ℚ) = n := by
  unfold to_string_double
  have h : (n : ℚ) * 1000000 = ((n * 1000000 : ℤ) : ℚ) := by push_cast; ring
  simp only [h, Int.floor_intCast, sub_self]
  norm_num

theorem to_string_double_one : to_string_double 1 = 1 := by
  have h := to_string_double_intCast 1
  simpa using h

theorem post_refill_none (c r now : ℚ) : post_refill none c r now = c := by
  simp [post_refill]

theorem post_refill_some (b : Bucket) (c r now : ℚ) :
    post_refill (some b) c r now
      = min c (b.tokens + (now - b.last_refill) * r / 1000000) := by
  simp [post_refill]

/-! ## C4: conservation -/

theorem expire_lapsed_none (db : Store) (key : String) (now : ℚ) (h : db key = none) :
    expire_lapsed db now key = none := by
  simp [expire_lapsed, h]

/-- C6, counterexample: a bucket holding 0 tokens with `last_refill` at 10 s,
asked for 1 token (capacity 10, 1 token per second) with the clock back at
0 s: the evaluation stores `tokens = -10`, not the previous 0, and reports
`remaining_tokens = -10`, a negative value. -/
theorem C6_counterexample_negative_refill :
    (check_rate_limit
        ⟨fun k => if k = "rate_limit:A" then some ⟨0, 10000000, some 3600⟩ else none, 0, 0, 0⟩
        false 0 "A" 10 1 1).2.remaining_tokens = -10
      ∧ (check_rate_limit
        ⟨fun k => if k = "rate_limit:A" then some ⟨0, 10000000, some 3600⟩ else none, 0, 0, 0⟩
        false 0 "A" 10 1 1).1.redis "rate_limit:A" = some ⟨-10, 0, some 3600⟩ := by
  have hpost : post_refill (some ⟨0, 10000000, some 3600⟩) ((10 : ℤ) : ℚ) (to_string_double 1)
      ((0 : ℤ) : ℚ) = -10 := by
    rw [to_string_double_one, post_refill_some]
    norm_num
  constructor
  · rw [check_rate_limit_remaining]
    simp only [String.reduceAppend, if_true, hpost]
    have : truncate (-10 : ℚ) = -10 := by
      have h := truncate_intCast (-10)
      simpa using h
    norm_num [this]
  · have h := check_rate_limit_store
      ⟨fun k => if k = "rate_limit:A" then some ⟨0, 10000000, some 3600⟩ else none, 0, 0, 0⟩
      0 "A" 10 1 1
    simp only [String.reduceAppend, if_true, hpost] at h
    rw [h]
    norm_num

/-- C6 (amended): clock regression.  For every stored bucket with
`0 ≤ tokens_prev ≤ capacity`, every `refill_rate > 0` and every call whose
`now_us` is older than the stored `last_refill`, the script applies the
refill unclamped: the post-refill tokens are
`tokens_prev + (now_us - last_refill) * refill_rate / 1000000`, strictly
less than `tokens_prev` (and possibly negative); this value, less `requested`
when the call is admitted, is what the script stores and returns;
`last_refill` is still updated to `now_us`. -/
theorem C6_clock_regression_unclamped (db : Store) (key : String) (b : Bucket)
    (capacity refill_rate requested now_us : ℚ)
    (hdb : db key = some b) (_h0 : 0 ≤ b.tokens) (hcap : b.tokens ≤ capacity)
    (hrate : 0 < refill_rate) (hback : now_us < b.last_refill) :
    post_refill (db key) capacity refill_rate now_us
        = b.tokens + (now_us - b.last_refill) * refill_rate / 1000000
      ∧ post_refill (db key) capacity refill_rate now_us < b.tokens
      ∧ (lua_script db key capacity refill_rate requested now_us).2.2
          = (if post_refill (db key) capacity refill_rate now_us ≥ requested
              then post_refill (db key) capacity refill_rate now_us - requested
              else post_refill (db key) capacity refill_rate now_us)
      ∧ (lua_script db key capacity refill_rate requested now_us).1 key
          = some ⟨(lua_script db key capacity refill_rate requested now_us).2.2, now_us,
              some 3600⟩ := by
  have hneg : (now_us - b.last_refill) * refill_rate / 1000000 < 0 :=
    div_neg_of_neg_of_pos (mul_neg_of_neg_of_pos (by linarith) hrate) (by norm_num)
  have hpost : post_refill (db key) capacity refill_rate now_us
      = b.tokens + (now_us - b.last_refill) * refill_rate / 1000000 := by
    rw [hdb, post_refill_some]
    exact min_eq_right (by linarith)
  refine ⟨hpost, by rw [hpost]; linarith, ?_, lua_script_store_key _ _ _ _ _ _⟩
  rw [lua_script_result]

/-- Witness for C6: a bucket holding 5 of 10 tokens, last refilled at 10 s,
evaluated with the clock back at 0 s. -/
theorem C6_clock_regression_unclamped_witness :
    post_refill
        ((fun k => if k = "rate_limit:A" then some ⟨5, 10000000, some 3600⟩ else none : Store)
          "rate_limit:A") 10 1 0
      < (Bucket.mk 5 10000000 (some 3600)).tokens :=
  (C6_clock_regression_unclamped
    (fun k => if k = "rate_limit:A" then some ⟨5, 10000000, some 3600⟩ else none)
    "rate_limit:A" ⟨5, 10000000, some 3600⟩ 10 1 1 0
    (by simp) (by norm_num) (by norm_num) (by norm_num) (by norm_num)).2.1

/-! ## C7: the reported remaining value -/

/-- C7, counterexample: the exhausted capacity-10, rate-1 bucket (0 tokens,
last refilled at 0 s), asked for 2 tokens at 2.5 s: the call is admitted and
the store keeps `tokens = 1/2`, but the returned `remaining_tokens` is `0`. -/
theorem C7_counterexample_fraction_dropped :
    (check_rate_limit
        ⟨fun k => if k = "rate_limit:A" then some ⟨0, 0, some 3600⟩ else none, 11, 10, 1⟩
        false 2500000 "A" 10 1 2).2.allowed = true
      ∧ (check_rate_limit
        ⟨fun k => if k = "rate_limit:A" then some ⟨0, 0, some 3600⟩ else none, 11, 10, 1⟩
        false 2500000 "A" 10 1 2).2.remaining_tokens = 0
      ∧ (check_rate_limit
        ⟨fun k => if k = "rate_limit:A" then some ⟨0, 0, some 3600⟩ else none, 11, 10, 1⟩
        false 2500000 "A" 10 1 2).1.redis "rate_limit:A" = some ⟨1 / 2, 2500000, some 3600⟩ := by
  have hpost : post_refill (some ⟨0, 0, some 3600⟩) ((10 : ℤ) : ℚ) (to_string_double 1)
      ((2500000 : ℤ) : ℚ) = 5 / 2 := by
    rw [to_string_double_one, post_refill_some]
    norm_num
  refine ⟨?_, ?_, ?_⟩
  · rw [check_rate_limit_allowed]
    simp only [String.reduceAppend, if_true, hpost]
    norm_num
  · rw [check_rate_limit_remaining]
    simp only [String.reduceAppend, if_true, hpost]
    norm_num [truncate]
  · have h := check_rate_limit_store
      ⟨fun k => if k = "rate_limit:A" then some ⟨0, 0, some 3600⟩ else none, 11, 10, 1⟩
      2500000 "A" 10 1 2
    simp only [String.reduceAppend, if_true, hpost] at h
    rw [h]
    norm_num

/-- C7 (amended): for every successful evaluation, the `remaining_tokens`
returned by `check_rate_limit` is the tokens value the evaluation stored (the
post-decrement value when admitted, the unchanged post-refill value when
denied) with its fractional part dropped (truncated toward zero). -/
theorem C7_remaining_is_stored_tokens_truncated (self : RateLimiter) (now : ℤ)
    (client_id : String) (capacity : ℤ) (refill_rate : ℚ) (requested : ℤ) :
    ∃ b, (check_rate_limit self false now client_id capacity refill_rate requested).1.redis
          ("rate_limit:" ++ client_id) = some b
      ∧ (check_rate_limit self false now client_id capacity refill_rate
          requested).2.remaining_tokens = (truncate b.tokens : ℤ)
      ∧ ((check_rate_limit self false now client_id capacity refill_rate
            requested).2.allowed = true →
          b.tokens = post_refill (self.redis ("rate_limit:" ++ client_id)) capacity
            (to_string_double refill_rate) now - requested)
      ∧ ((check_rate_limit self false now client_id capacity refill_rate
            requested).2.allowed = false →
          b.tokens = post_refill (self.redis ("rate_limit:" ++ client_id)) capacity
            (to_string_double refill_rate) now) := by
  refine ⟨_, check_rate_limit_store self now client_id capacity refill_rate requested, ?_, ?_, ?_⟩
  · rw [check_rate_limit_remaining]
  · rw [check_rate_limit_allowed]
    intro h
    rw [if_pos (by simpa using h)]
  · rw [check_rate_limit_allowed]
    intro h
    rw [if_neg (by simpa using h)]

/-! ## C8: the retry-after hint -/

theorem static_cast_uint64_of_nonneg {x : ℚ} (h0 : 0 ≤ x) (hlt : x < 2 ^ 64) :
    static_cast_uint64 x = ⌊x⌋₊ := by
  unfold static_cast_uint64 truncate
  rw [if_pos h0]
  have hf0 : 0 ≤ ⌊x⌋ := Int.floor_nonneg.mpr h0
  have hflt : ⌊x⌋ < 2 ^ 64 := by
    rw [Int.floor_lt]
    exact_mod_cast hlt
  rw [Int.emod_eq_of_lt hf0 hflt]
  exact Int.floor_toNat x

/-- C8, counterexample: a first call with capacity 10 and `refill_rate = 1.5`
leaves the bucket not full (`remaining_tokens = 9`) and returns
`retry_after_ms = 666`, whereas `round(1000 / 1.5) = 667`. -/
theorem C8_counterexample_retry_after_truncates :
    (check_rate_limit ⟨Store.empty, 0, 0, 0⟩ false 0 "A" 10 (3 / 2) 1).2.remaining_tokens = 9
      ∧ (check_rate_limit ⟨Store.empty, 0, 0, 0⟩ false 0 "A" 10 (3 / 2) 1).2.retry_after_ms = 666
      ∧ round ((1000 : ℚ) / (3 / 2)) = 667 := by
  have hrem : (check_rate_limit ⟨Store.empty, 0, 0, 0⟩ false 0 "A" 10 (3 / 2)
      1).2.remaining_tokens = 9 := by
    rw [check_rate_limit_remaining]
    simp only [Store.empty, post_refill_none]
    have : truncate (9 : ℚ) = 9 := by
      have h := truncate_intCast 9
      simpa using h
    norm_num [this]
  refine ⟨hrem, ?_, ?_⟩
  · have hlt : (check_rate_limit ⟨Store.empty, 0, 0, 0⟩ false 0 "A" 10 (3 / 2)
        1).2.remaining_tokens < ((10 : ℤ) : ℚ) := by
      rw [hrem]; norm_num
    rw [check_rate_limit_remaining] at hlt
    rw [check_rate_limit_ok]
    simp only [lua_script_result]
    rw [if_pos hlt, static_cast_uint64_of_nonneg (by norm_num) (by norm_num)]
    rw [Nat.floor_eq_iff (by norm_num)]
    norm_num
  · rw [round_eq, Int.floor_eq_iff]
    norm_num

/-- C8 (amended): for every successful evaluation with `refill_rate > 0` (and
`1000 / refill_rate < 2 ^ 64`, so that the conversion to `uint64_t` is
defined), `retry_after_ms` equals `1000 / refill_rate` rounded down to an
integer when `remaining_tokens < capacity`, and equals 0 otherwise. -/
theorem C8_retry_after_is_floor (self : RateLimiter) (now : ℤ) (client_id : String)
    (capacity : ℤ) (refill_rate : ℚ) (requested : ℤ)
    (hrate : 0 < refill_rate) (hrange : 1000 / refill_rate < 2 ^ 64) :
    (check_rate_limit self false now client_id capacity refill_rate requested).2.retry_after_ms
      = if (check_rate_limit self false now client_id capacity refill_rate
            requested).2.remaining_tokens < capacity
        then ⌊1000 / refill_rate⌋₊ else 0 := by
  have hx : (1 / refill_rate) * 1000 = 1000 / refill_rate := by ring
  have h0 : 0 ≤ 1000 / refill_rate := by positivity
  rw [check_rate_limit_ok]
  simp only [hx]
  rw [static_cast_uint64_of_nonneg h0 hrange]

/-- Witness for C8: the default parameters (capacity 100, 10 tokens per
second, 1 token) on a first call give `retry_after_ms = 100`. -/
theorem C8_retry_after_is_floor_witness :
    (0 : ℚ) < 10 ∧ (1000 : ℚ) / 10 < 2 ^ 64
      ∧ (check_rate_limit ⟨Store.empty, 0, 0, 0⟩ false 0 "A" 100 10 1).2.retry_after_ms
          = 100 := by
  have h := C8_retry_after_is_floor ⟨Store.empty, 0, 0, 0⟩ 0 "A" 100 10 1 (by norm_num)
    (by norm_num)
  have hrem : (check_rate_limit ⟨Store.empty, 0, 0, 0⟩ false 0 "A" 100 10
      1).2.remaining_tokens = 99 := by
    rw [check_rate_limit_remaining]
    simp only [Store.empty, post_refill_none]
    have : truncate (99 : ℚ) = 99 := by
      have h := truncate_intCast 99
      simpa using h
    norm_num [this]
  rw [hrem] at h
  have hfl : ⌊(1000 : ℚ) / 10⌋₊ = 100 := by
    rw [Nat.floor_eq_iff (by norm_num)]
    norm_num
  rw [hfl] at h
  refine ⟨by norm_num, by norm_num, ?_⟩
  rw [h]
  norm_num

/-! ## C9: requests above the capacity -/

/-- C9, counterexample: a bucket holding 2 of 5 tokens, last refilled at 0 s,
asked for 10 tokens at 1 s (1 token per second): the request is denied, yet
the stored hash changes from `(tokens 2, last_refill 0)` to
`(tokens 3, last_refill 1000000)`. -/
theorem C9_counterexample_denied_call_writes :
    (check_rate_limit
        ⟨fun k => if k = "rate_limit:A" then some ⟨2, 0, some 3600⟩ else none, 0, 0, 0⟩
        false 1000000 "A" 5 1 10).2.allowed = false
      ∧ (fun k => if k = "rate_limit:A" then some ⟨2, 0, some 3600⟩ else none : Store)
          "rate_limit:A" = some ⟨2, 0, some 3600⟩
      ∧ (check_rate_limit
        ⟨fun k => if k = "rate_limit:A" then some ⟨2, 0, some 3600⟩ else none, 0, 0, 0⟩
        false 1000000 "A" 5 1 10).1.redis "rate_limit:A" = some ⟨3, 1000000, some 3600⟩ := by
  have hpost : post_refill (some ⟨2, 0, some 3600⟩) ((5 : ℤ) : ℚ) (to_string_double 1)
      ((1000000 : ℤ) : ℚ) = 3 := by
    rw [to_string_double_one, post_refill_some]
    norm_num
  refine ⟨?_, by simp, ?_⟩
  · rw [check_rate_limit_allowed]
    simp only [String.reduceAppend, if_true, hpost]
    norm_num
  · have h := check_rate_limit_store
      ⟨fun k => if k = "rate_limit:A" then some ⟨2, 0, some 3600⟩ else none, 0, 0, 0⟩
      1000000 "A" 5 1 10
    simp only [String.reduceAppend, if_true, hpost] at h
    rw [h]
    norm_num

/-- C9 (amended): for every call with `requested > capacity` and every stored
bucket state, the request is denied and no tokens are consumed: the script
writes the hash anew with the post-refill tokens, `last_refill = now_us` and
a TTL of 3600 s, and every other key is left as it was.  In particular
`capacity = 5`, `requested = 10` against a full bucket (absent, or holding 5
tokens at a `last_refill` not later than `now_us`, with `refill_rate ≥ 0`)
returns `allowed = false` with `remaining_tokens = 5` and leaves 5 tokens in
the bucket. -/
theorem C9_over_capacity_denied (self : RateLimiter) (now : ℤ) (client_id : String)
    (capacity : ℤ) (refill_rate : ℚ) (requested : ℤ) (hover : capacity < requested) :
    (check_rate_limit self false now client_id capacity refill_rate requested).2.allowed = false
      ∧ (check_rate_limit self false now client_id capacity refill_rate requested).1.redis
          ("rate_limit:" ++ client_id)
        = some ⟨post_refill (self.redis ("rate_limit:" ++ client_id)) capacity
            (to_string_double refill_rate) now, now, some 3600⟩
      ∧ (∀ key, key ≠ "rate_limit:" ++ client_id →
          (check_rate_limit self false now client_id capacity refill_rate requested).1.redis key
            = self.redis key)
      ∧ (capacity = 5 → requested = 10 → 0 ≤ refill_rate →
          (self.redis ("rate_limit:" ++ client_id) = none
            ∨ ∃ t ttl, self.redis ("rate_limit:" ++ client_id) = some ⟨5, t, ttl⟩ ∧ t ≤ now) →
          (check_rate_limit self false now client_id capacity refill_rate
              requested).2.remaining_tokens = 5
            ∧ (check_rate_limit self false now client_id capacity refill_rate
                requested).1.redis ("rate_limit:" ++ client_id) = some ⟨5, now, some 3600⟩) := by
  have hlt : ¬ (requested : ℚ) ≤ post_refill (self.redis ("rate_limit:" ++ client_id)) capacity
      (to_string_double refill_rate) now := by
    have hle := post_refill_le (self.redis ("rate_limit:" ++ client_id)) capacity
      (to_string_double refill_rate) now
    have : (capacity : ℚ) < requested := by exact_mod_cast hover
    linarith
  have hstore := check_rate_limit_store self now client_id capacity refill_rate requested
  rw [if_neg hlt] at hstore
  have hrem := check_rate_limit_remaining self now client_id capacity refill_rate requested
  rw [if_neg hlt] at hrem
  refine ⟨?_, hstore, ?_, ?_⟩
  · rw [check_rate_limit_allowed]
    simpa using hlt
  · intro key hkey
    rw [check_rate_limit_ok]
    exact lua_script_store_other _ _ _ _ _ _ _ hkey
  · intro hc _ hr hfull
    have hpost : post_refill (self.redis ("rate_limit:" ++ client_id)) capacity
        (to_string_double refill_rate) now = 5 := by
      subst hc
      rcases hfull with hnone | ⟨t, ttl, hsome, ht⟩
      · rw [hnone, post_refill_none]; norm_num
      · rw [hsome, post_refill_some]
        have h1 : (0 : ℚ) ≤ ((now : ℚ) - t) * to_string_double refill_rate / 1000000 :=
          div_nonneg (mul_nonneg (by linarith) (to_string_double_nonneg hr)) (by norm_num)
        simp only
        rw [min_eq_left (by push_cast; linarith)]
        norm_num
    rw [hrem, hstore, hpost]
    have : truncate (5 : ℚ) = 5 := by
      have h := truncate_intCast 5
      simpa using h
    exact ⟨by norm_num [this], rfl⟩

/-- Witness for C9: capacity 5, 10 tokens requested from an absent (full)
bucket. -/
theorem C9_over_capacity_denied_witness :
    (5 : ℤ) < 10
      ∧ (check_rate_limit ⟨Store.empty, 0, 0, 0⟩ false 0 "A" 5 1 10).2.allowed = false
      ∧ (check_rate_limit ⟨Store.empty, 0, 0, 0⟩ false 0 "A" 5 1 10).2.remaining_tokens = 5 :=
  ⟨by norm_num,
    (C9_over_capacity_denied ⟨Store.empty, 0, 0, 0⟩ 0 "A" 5 1 10 (by norm_num)).1,
    ((C9_over_capacity_denied ⟨Store.empty, 0, 0, 0⟩ 0 "A" 5 1 10 (by norm_num)).2.2.2
      rfl rfl (by norm_num) (Or.inl rfl)).1⟩

/-! ## C10: the three counters -/

/-- C10, counterexample: `2 ^ 64 - 1` successful calls from zeroed counters
bring `total_requests` to `2 ^ 64 - 1`, and one more call leaves
`total_requests` at `0`: the call did not add one to `total_requests`, and
the counter went down. -/
theorem C10_counterexample_counters_wrap :
    (run ⟨Store.empty, 0, 0, 0⟩
        (List.replicate (2 ^ 64 - 1) ⟨false, 0, "A", 100, 10, 1⟩)).total_requests
        = 2 ^ 64 - 1
      ∧ (call
          (run ⟨Store.empty, 0, 0, 0⟩ (List.replicate (2 ^ 64 - 1) ⟨false, 0, "A", 100, 10, 1⟩))
          ⟨false, 0, "A", 100, 10, 1⟩).1.total_requests = 0 := by
  have hlen : (List.replicate (2 ^ 64 - 1) (Call.mk false 0 "A" 100 10 1)).length < 2 ^ 64 := by
    rw [List.length_replicate]
    norm_num
  have h := (run_counters Store.empty _ hlen).1
  rw [List.length_replicate] at h
  refine ⟨h, ?_⟩
  rw [call_total, h]
  unfold atomic_incr
  norm_num

/-- C10 (amended): in every counter state reached from zeroed counters by
fewer than `2 ^ 64 - 1` calls, a further `check_rate_limit` call adds exactly
1 to `total_requests` and decreases no counter; when it does not fail open it
also adds exactly 1 to exactly one of `allowed_requests` and
`denied_requests` (to `allowed_requests` exactly when the decision is an
admission), and when it fails open it changes neither.  Therefore, before and
after the call, `allowed_requests + denied_requests ≤ total_requests`, with
equality exactly when no call so far has failed open. -/
theorem C10_counters (db : Store) (cs : List Call) (c : Call)
    (hlen : cs.length + 1 < 2 ^ 64) :
    let s := run ⟨db, 0, 0, 0⟩ cs
    let out := call s c
    (out.1.total_requests = s.total_requests + 1
        ∧ s.allowed_requests ≤ out.1.allowed_requests
        ∧ s.denied_requests ≤ out.1.denied_requests)
      ∧ (c.fault = false →
          (out.2.allowed = true ∧ out.1.allowed_requests = s.allowed_requests + 1
              ∧ out.1.denied_requests = s.denied_requests)
            ∨ (out.2.allowed = false ∧ out.1.denied_requests = s.denied_requests + 1
              ∧ out.1.allowed_requests = s.allowed_requests))
      ∧ (c.fault = true →
          out.1.allowed_requests = s.allowed_requests
            ∧ out.1.denied_requests = s.denied_requests)
      ∧ (s.allowed_requests + s.denied_requests ≤ s.total_requests
          ∧ (s.allowed_requests + s.denied_requests = s.total_requests
              ↔ ∀ d ∈ cs, d.fault = false))
      ∧ (out.1.allowed_requests + out.1.denied_requests ≤ out.1.total_requests
          ∧ (out.1.allowed_requests + out.1.denied_requests = out.1.total_requests
              ↔ ∀ d ∈ cs ++ [c], d.fault = false)) := by
  intro s out
  have key : ∀ (l : List Call), l.length < 2 ^ 64 →
      (run ⟨db, 0, 0, 0⟩ l).allowed_requests + (run ⟨db, 0, 0, 0⟩ l).denied_requests
          ≤ (run ⟨db, 0, 0, 0⟩ l).total_requests
        ∧ ((run ⟨db, 0, 0, 0⟩ l).allowed_requests + (run ⟨db, 0, 0, 0⟩ l).denied_requests
            = (run ⟨db, 0, 0, 0⟩ l).total_requests ↔ ∀ d ∈ l, d.fault = false) := by
    intro l hl
    obtain ⟨ht, had⟩ := run_counters db l hl
    rw [ht, had]
    refine ⟨List.length_filter_le _ _, ?_⟩
    rw [List.filter_length_eq_length]
    simp
  have hst : s.total_requests = cs.length := (run_counters db cs (by omega)).1
  have hsad : s.allowed_requests + s.denied_requests
      = (cs.filter (fun d => !d.fault)).length := (run_counters db cs (by omega)).2
  have hfl : (cs.filter (fun d => !d.fault)).length ≤ cs.length := List.length_filter_le _ _
  have htot : out.1.total_requests = s.total_requests + 1 := by
    show (call s c).1.total_requests = _
    rw [call_total]
    exact atomic_incr_of_lt (by rw [hst]; exact hlen)
  have hpair := call_allowed_denied s c
  rw [Prod.ext_iff] at hpair
  obtain ⟨ha, hd⟩ := hpair
  simp only at ha hd
  have hA : (call s c).1.allowed_requests = out.1.allowed_requests := rfl
  have hD : (call s c).1.denied_requests = out.1.denied_requests := rfl
  have hR : (call s c).2.allowed = out.2.allowed := rfl
  rw [hA, hR] at ha
  rw [hD, hR] at hd
  have hia : atomic_incr s.allowed_requests = s.allowed_requests + 1 :=
    atomic_incr_of_lt (by omega)
  have hid : atomic_incr s.denied_requests = s.denied_requests + 1 :=
    atomic_incr_of_lt (by omega)
  rw [hia, hid] at ha hd
  refine ⟨⟨htot, ?_, ?_⟩, ?_, ?_, key cs (by omega), ?_⟩
  · rw [ha]; split_ifs <;> simp
  · rw [hd]; split_ifs <;> simp
  · intro hf
    rw [ha, hd]
    simp only [hf, Bool.false_eq_true, if_false]
    cases hall : out.2.allowed
    · right; simp
    · left; simp
  · intro hf
    rw [ha, hd]
    simp [hf]
  · have := key (cs ++ [c]) (by simpa using hlen)
    rw [run_append] at this
    exact this

/-- Witness for C10: three calls (admitted, failed open, denied) followed by
an admitted one. -/
theorem C10_counters_witness :
    ([(⟨false, 0, "A", 1, 1, 1⟩ : Call), ⟨true, 0, "A", 1, 1, 1⟩,
        ⟨false, 0, "A", 1, 1, 1⟩].length + 1 < 2 ^ 64)
      ∧ (call (run ⟨Store.empty, 0, 0, 0⟩
            [⟨false, 0, "A", 1, 1, 1⟩, ⟨true, 0, "A", 1, 1, 1⟩, ⟨false, 0, "A", 1, 1, 1⟩])
          ⟨false, 1000000, "A", 1, 1, 1⟩).1.total_requests
        = (run ⟨Store.empty, 0, 0, 0⟩
            [⟨false, 0, "A", 1, 1, 1⟩, ⟨true, 0, "A", 1, 1, 1⟩,
              ⟨false, 0, "A", 1, 1, 1⟩]).total_requests + 1 :=
  ⟨by norm_num,
    (C10_counters Store.empty
      [⟨false, 0, "A", 1, 1, 1⟩, ⟨true, 0, "A", 1, 1, 1⟩, ⟨false, 0, "A", 1, 1, 1⟩]
      ⟨false, 1000000, "A", 1, 1, 1⟩ (by norm_num)).1.1⟩

/-! ## More evaluation lemmas -/

theorem check_rate_limit_retry (self : RateLimiter) (now : ℤ) (cid : String) (c : ℤ)
    (r : ℚ) (k : ℤ) :
    (check_rate_limit self false now cid c r k).2.retry_after_ms
      = if (check_rate_limit self false now cid c r k).2.remaining_tokens < (c : ℚ)
        then static_cast_uint64 ((1 / r) * 1000) else 0 := by
  rw [check_rate_limit_ok]

theorem static_cast_uint64_natCast (n : ℕ) (h : n < 2 ^ 64) :
    static_cast_uint64 (n : ℚ) = n := by
  rw [static_cast_uint64_of_nonneg (by positivity) (by exact_mod_cast h)]
  exact Nat.floor_natCast n

theorem static_cast_uint64_rate_one : static_cast_uint64 ((1 / 1) * 1000) = 1000 := by
  have h := static_cast_uint64_natCast 1000 (by norm_num)
  have e : ((1 : ℚ) / 1) * 1000 = ((1000 : ℕ) : ℚ) := by norm_num
  rw [e, h]

theorem RateLimitResult_eq (x : RateLimitResult) (a : Bool) (m : ℚ) (t : ℕ)
    (ha : x.allowed = a) (hm : x.remaining_tokens = m) (ht : x.retry_after_ms = t) :
    x = { allowed := a, remaining_tokens := m, retry_after_ms := t } := by
  cases x
  simp only at ha hm ht
  rw [ha, hm, ht]

theorem RateLimitResult_eq_of_fields (x y : RateLimitResult)
    (ha : x.allowed = y.allowed) (hm : x.remaining_tokens = y.remaining_tokens)
    (ht : x.retry_after_ms = y.retry_after_ms) : x = y := by
  cases x
  cases y
  simp only at ha hm ht
  rw [ha, hm, ht]

/-! ## C11: out-of-range parameters on `POST /check` -/

/-- C11, counterexample: `POST /check` with `capacity = 5` and `tokens = 10`
(`requested > capacity`) on a fresh limiter is answered with status 429, not
400, and is counted: `total_requests` and `denied_requests` both become 1. -/
theorem C11_counterexample_out_of_range_is_evaluated :
    (post_check ⟨Store.empty, 0, 0, 0⟩ false 0 0
        (Except.ok ⟨none, some 5, none, some 10⟩)).2.status = 429
      ∧ (post_check ⟨Store.empty, 0, 0, 0⟩ false 0 0
        (Except.ok ⟨none, some 5, none, some 10⟩)).1.total_requests = 1
      ∧ (post_check ⟨Store.empty, 0, 0, 0⟩ false 0 0
        (Except.ok ⟨none, some 5, none, some 10⟩)).1.denied_requests = 1 := by
  have hden : (check_rate_limit ⟨Store.empty, 0, 0, 0⟩ false 0 "default" 5 10 10).2.allowed
      = false := by
    rw [check_rate_limit_allowed]
    simp only [Store.empty, post_refill_none]
    norm_num
  have hcnt := call_allowed_denied ⟨Store.empty, 0, 0, 0⟩ ⟨false, 0, "default", 5, 10, 10⟩
  have htot := call_total ⟨Store.empty, 0, 0, 0⟩ ⟨false, 0, "default", 5, 10, 10⟩
  simp only [call] at hcnt htot
  rw [hden, Prod.ext_iff] at hcnt
  simp only [Bool.false_eq_true, if_false] at hcnt
  refine ⟨?_, ?_, ?_⟩
  · simp only [post_check, Option.getD_none, Option.getD_some, hden]
    norm_num
  · simp only [post_check, Option.getD_none, Option.getD_some, htot]
    norm_num [atomic_incr]
  · simp only [post_check, Option.getD_none, Option.getD_some, hcnt.2]
    norm_num [atomic_incr]

/-- C11 (amended): `POST /check` neither clamps nor rejects out-of-range
policy parameters.  Whenever the body is read without an exception, whatever
values it holds are passed unchanged (absent members replaced by the defaults
`"default"`, 100, 10.0, 1) to `check_rate_limit`: `total_requests` goes up by
one modulo `2 ^ 64` and the status is 200 or 429 according to that decision,
never 400.  Status 400, with the message of the exception, is produced only
when reading the body throws, and then the limiter (counters and store) is
left as it was. -/
theorem C11_post_check_evaluates_any_parameters (limiter : RateLimiter) (fault : Bool)
    (steady_now duration_us : ℤ) (body : CheckRequest) (what : String) :
    ((post_check limiter fault steady_now duration_us (Except.ok body)).1
        = (check_rate_limit limiter fault steady_now (body.client_id.getD "default")
            (body.capacity.getD 100) (body.refill_rate.getD 10) (body.tokens.getD 1)).1
      ∧ (post_check limiter fault steady_now duration_us (Except.ok body)).2.status
        = (if (check_rate_limit limiter fault steady_now (body.client_id.getD "default")
              (body.capacity.getD 100) (body.refill_rate.getD 10)
              (body.tokens.getD 1)).2.allowed = true
            then 200 else 429)
      ∧ (post_check limiter fault steady_now duration_us (Except.ok body)).2.status ≠ 400
      ∧ (post_check limiter fault steady_now duration_us (Except.ok body)).1.total_requests
        = (limiter.total_requests + 1) % 2 ^ 64)
      ∧ post_check limiter fault steady_now duration_us (Except.error what)
        = (limiter, { status := 400, content := Content.error what }) := by
  refine ⟨⟨rfl, rfl, ?_, ?_⟩, rfl⟩
  · simp only [post_check]
    split_ifs <;> norm_num
  · have h := call_total limiter ⟨fault, steady_now, body.client_id.getD "default",
      body.capacity.getD 100, body.refill_rate.getD 10, body.tokens.getD 1⟩
    simp only [call] at h
    simp only [post_check]
    rw [h]
    rfl

/-! ## C12: an absent key is a full bucket -/

theorem lua_script_absent_eq_full (db : Store) (key : String) (c r k now : ℚ)
    (ttl : Option ℕ) (habsent : db key = none) :
    lua_script db key c r k now
      = lua_script (fun x => if x = key then some ⟨c, now, ttl⟩ else db x) key c r k now := by
  unfold lua_script HMGET
  simp only [habsent, if_true, Option.getD_none, Option.getD_some]
  rw [Prod.ext_iff]
  refine ⟨?_, rfl⟩
  funext x
  unfold EXPIRE HMSET
  by_cases hx : x = key
  · simp [hx]
  · simp [hx]

/-- C12: for every call, evaluating against an absent key yields the same
decision and the same store (and counters) as evaluating against the store in
which that key holds `tokens = capacity` and `last_refill = now_us`.  In
particular a first call with `capacity = 10`, `refill_rate = 1`,
`requested = 1` returns `{allowed: true, remaining: 9, retry_after_ms: 1000}`. -/
theorem C12_absent_key_is_full_bucket (self : RateLimiter) (now : ℤ) (client_id : String)
    (capacity : ℤ) (refill_rate : ℚ) (requested : ℤ) (ttl : Option ℕ)
    (habsent : self.redis ("rate_limit:" ++ client_id) = none) :
    check_rate_limit self false now client_id capacity refill_rate requested
        = check_rate_limit
            { self with
              redis := fun k =>
                if k = "rate_limit:" ++ client_id then some ⟨capacity, now, ttl⟩
                else self.redis k }
            false now client_id capacity refill_rate requested
      ∧ (capacity = 10 → refill_rate = 1 → requested = 1 →
          (check_rate_limit self false now client_id capacity refill_rate requested).2
            = { allowed := true, remaining_tokens := 9, retry_after_ms := 1000 }) := by
  constructor
  · rw [check_rate_limit_ok, check_rate_limit_ok]
    simp only
    rw [← lua_script_absent_eq_full self.redis _ _ _ _ _ ttl habsent]
  · intro hc hr hk
    subst hc hr hk
    have hrem := check_rate_limit_remaining self now client_id 10 1 1
    have hall := check_rate_limit_allowed self now client_id 10 1 1
    rw [habsent, post_refill_none] at hrem hall
    have ht : truncate (9 : ℚ) = 9 := by
      have h := truncate_intCast 9
      simpa using h
    have hrem2 : (check_rate_limit self false now client_id 10 1 1).2.remaining_tokens = 9 := by
      rw [hrem]; norm_num [ht]
    have hall2 : (check_rate_limit self false now client_id 10 1 1).2.allowed = true := by
      rw [hall]; norm_num
    have hretry := check_rate_limit_retry self now client_id 10 1 1
    rw [hrem2, if_pos (by norm_num), static_cast_uint64_rate_one] at hretry
    exact RateLimitResult_eq _ _ _ _ hall2 hrem2 hretry

/-- Witness for C12: the first call of client `"A"` on the empty store. -/
theorem C12_absent_key_is_full_bucket_witness :
    (Store.empty ("rate_limit:" ++ "A") = none)
      ∧ (check_rate_limit ⟨Store.empty, 0, 0, 0⟩ false 0 "A" 10 1 1).2
        = { allowed := true, remaining_tokens := 9, retry_after_ms := 1000 } :=
  ⟨rfl, (C12_absent_key_is_full_bucket ⟨Store.empty, 0, 0, 0⟩ 0 "A" 10 1 1 none rfl).2
    rfl rfl rfl⟩

/-! ## C13: exhaustion at a frozen clock -/

theorem run_replicate_succ (s : RateLimiter) (c : Call) (i : ℕ) :
    run s (List.replicate (i + 1) c) = (call (run s (List.replicate i c)) c).1 := by
  rw [List.replicate_succ', run_append]

/-- With the clock frozen, `i ≤ C` requests of one token each against a bucket
that was absent leave `C - i` tokens for the next evaluation. -/
theorem frozen_post_refill (self : RateLimiter) (now : ℤ) (cid : String) (C : ℤ) (r : ℚ)
    (habsent : self.redis ("rate_limit:" ++ cid) = none) (i : ℕ) (hi : (i : ℤ) ≤ C) :
    post_refill ((run self (List.replicate i ⟨false, now, cid, C, r, 1⟩)).redis
        ("rate_limit:" ++ cid)) C (to_string_double r) now = (C : ℚ) - i := by
  induction i with
  | zero => simp [run, habsent, post_refill_none]
  | succ i ih =>
    have hi2 : (i : ℤ) + 1 ≤ C := by exact_mod_cast hi
    have hprev := ih (by omega)
    have h1 : ((1 : ℤ) : ℚ) ≤ (C : ℚ) - i := by
      have : (1 : ℤ) ≤ C - i := by omega
      exact_mod_cast this
    rw [run_replicate_succ]
    simp only [call]
    rw [check_rate_limit_store, hprev, if_pos h1, post_refill_some]
    simp only [sub_self, zero_mul, zero_div, add_zero]
    rw [min_eq_right]
    · push_cast; ring
    · have : (0 : ℚ) ≤ (i : ℚ) := by positivity
      push_cast
      linarith

/-- C13: exhaustion.  For every capacity `C ≥ 1` and `refill_rate > 0`,
starting from an absent bucket with the clock frozen, the first `C` calls that
each request 1 token are all admitted and report `remaining_tokens` `C - 1`,
`C - 2`, ..., `0` in that order (call number `i + 1` reports `C - 1 - i`), and
call number `C + 1` is denied with `remaining_tokens = 0`; for `C = 10` and
rate 1 that last decision is `{allowed: false, remaining: 0, retry_after_ms:
1000}`. -/
theorem C13_exhaustion (self : RateLimiter) (now : ℤ) (client_id : String) (C : ℤ)
    (refill_rate : ℚ) (hC : 1 ≤ C) (_hrate : 0 < refill_rate)
    (habsent : self.redis ("rate_limit:" ++ client_id) = none) :
    (∀ i : ℕ, (i : ℤ) < C →
        (call (run self (List.replicate i ⟨false, now, client_id, C, refill_rate, 1⟩))
            ⟨false, now, client_id, C, refill_rate, 1⟩).2.allowed = true
          ∧ (call (run self (List.replicate i ⟨false, now, client_id, C, refill_rate, 1⟩))
            ⟨false, now, client_id, C, refill_rate, 1⟩).2.remaining_tokens = (C : ℚ) - 1 - i)
      ∧ ((call (run self (List.replicate C.toNat ⟨false, now, client_id, C, refill_rate, 1⟩))
            ⟨false, now, client_id, C, refill_rate, 1⟩).2.allowed = false
          ∧ (call (run self (List.replicate C.toNat ⟨false, now, client_id, C, refill_rate, 1⟩))
            ⟨false, now, client_id, C, refill_rate, 1⟩).2.remaining_tokens = 0)
      ∧ (C = 10 → refill_rate = 1 →
          (call (run self (List.replicate 10 ⟨false, now, client_id, C, refill_rate, 1⟩))
            ⟨false, now, client_id, C, refill_rate, 1⟩).2
            = { allowed := false, remaining_tokens := 0, retry_after_ms := 1000 }) := by
  have hlast : (call (run self (List.replicate C.toNat ⟨false, now, client_id, C, refill_rate, 1⟩))
        ⟨false, now, client_id, C, refill_rate, 1⟩).2.allowed = false
      ∧ (call (run self (List.replicate C.toNat ⟨false, now, client_id, C, refill_rate, 1⟩))
        ⟨false, now, client_id, C, refill_rate, 1⟩).2.remaining_tokens = 0 := by
    have hn : ((C.toNat : ℕ) : ℤ) = C := Int.toNat_of_nonneg (by omega)
    have hpost := frozen_post_refill self now client_id C refill_rate habsent C.toNat
      (by omega)
    have hq : ((C.toNat : ℕ) : ℚ) = (C : ℚ) := by exact_mod_cast hn
    rw [hq, sub_self] at hpost
    simp only [call]
    rw [check_rate_limit_allowed, check_rate_limit_remaining, hpost]
    norm_num [truncate_zero]
  refine ⟨?_, hlast, ?_⟩
  · intro i hi
    have hpost := frozen_post_refill self now client_id C refill_rate habsent i (by omega)
    have h1 : ((1 : ℤ) : ℚ) ≤ (C : ℚ) - i := by
      have : (1 : ℤ) ≤ C - i := by omega
      exact_mod_cast this
    simp only [call]
    rw [check_rate_limit_allowed, check_rate_limit_remaining, hpost, if_pos h1]
    refine ⟨by simpa using h1, ?_⟩
    have ht := truncate_intCast (C - i - 1)
    have e : (C : ℚ) - i - ((1 : ℤ) : ℚ) = ((C - i - 1 : ℤ) : ℚ) := by push_cast; ring
    rw [e, ht]
    push_cast
    ring
  · intro hC10 hr
    subst hC10 hr
    have h10 : (10 : ℤ).toNat = 10 := rfl
    rw [h10] at hlast
    obtain ⟨ha, hm⟩ := hlast
    have hretry := check_rate_limit_retry
      (run self (List.replicate 10 ⟨false, now, client_id, 10, 1, 1⟩)) now client_id 10 1 1
    simp only [call] at ha hm ⊢
    rw [hm, if_pos (by norm_num), static_cast_uint64_rate_one] at hretry
    exact RateLimitResult_eq _ _ _ _ ha hm hretry

/-- Witness for C13: capacity 10 at 1 token per second on the empty store. -/
theorem C13_exhaustion_witness :
    (call (run ⟨Store.empty, 0, 0, 0⟩ (List.replicate 0 ⟨false, 0, "A", 10, 1, 1⟩))
        ⟨false, 0, "A", 10, 1, 1⟩).2.remaining_tokens = (10 : ℤ) - 1 - (0 : ℕ)
      ∧ (call (run ⟨Store.empty, 0, 0, 0⟩ (List.replicate 10 ⟨false, 0, "A", 10, 1, 1⟩))
        ⟨false, 0, "A", 10, 1, 1⟩).2
        = { allowed := false, remaining_tokens := 0, retry_after_ms := 1000 } :=
  ⟨((C13_exhaustion ⟨Store.empty, 0, 0, 0⟩ 0 "A" 10 1 (by norm_num) (by norm_num) rfl).1 0
      (by norm_num)).2,
    (C13_exhaustion ⟨Store.empty, 0, 0, 0⟩ 0 "A" 10 1 (by norm_num) (by norm_num) rfl).2.2
      rfl rfl⟩

/-! ## C14: a denial repeats at a frozen clock -/

/-- At the instant a bucket was last written, the refill adds nothing. -/
theorem post_refill_same_instant (v c r now : ℚ) (ttl : Option ℕ) (hv : v ≤ c) :
    post_refill (some ⟨v, now, ttl⟩) c r now = v := by
  rw [post_refill_some]
  simp only [sub_self, zero_mul, zero_div, add_zero]
  exact min_eq_right hv

/-- C14: determinism at a frozen clock.  For every stored bucket state and all
parameters, if a call at time `now_us` is denied, then an immediately
following evaluation with the same client, parameters and `now_us` is also
denied, reports the same `remaining_tokens` and `retry_after_ms`, and leaves
the store exactly as the first call left it. -/
theorem C14_denial_repeats_at_frozen_clock (self : RateLimiter) (fault : Bool) (now : ℤ)
    (client_id : String) (capacity : ℤ) (refill_rate : ℚ) (requested : ℤ)
    (hdenied :
      (check_rate_limit self fault now client_id capacity refill_rate requested).2.allowed
        = false) :
    (check_rate_limit
        (check_rate_limit self fault now client_id capacity refill_rate requested).1
        false now client_id capacity refill_rate requested).2
        = (check_rate_limit self fault now client_id capacity refill_rate requested).2
      ∧ (check_rate_limit
        (check_rate_limit self fault now client_id capacity refill_rate requested).1
        false now client_id capacity refill_rate requested).1.redis
        = (check_rate_limit self fault now client_id capacity refill_rate requested).1.redis := by
  cases fault with
  | true =>
    rw [check_rate_limit_fault] at hdenied
    simp at hdenied
  | false =>
    have hlt : ¬ (requested : ℚ) ≤ post_refill (self.redis ("rate_limit:" ++ client_id))
        capacity (to_string_double refill_rate) now := by
      rw [check_rate_limit_allowed] at hdenied
      simpa using hdenied
    have hstore := check_rate_limit_store self now client_id capacity refill_rate requested
    rw [if_neg hlt] at hstore
    have hrem := check_rate_limit_remaining self now client_id capacity refill_rate requested
    rw [if_neg hlt] at hrem
    have hpost2 : post_refill
        ((check_rate_limit self false now client_id capacity refill_rate requested).1.redis
          ("rate_limit:" ++ client_id)) capacity (to_string_double refill_rate) now
        = post_refill (self.redis ("rate_limit:" ++ client_id)) capacity
            (to_string_double refill_rate) now := by
      rw [hstore]
      exact post_refill_same_instant _ _ _ _ _ (post_refill_le _ _ _ _)
    have hall2 := check_rate_limit_allowed
      (check_rate_limit self false now client_id capacity refill_rate requested).1
      now client_id capacity refill_rate requested
    have hrem2 := check_rate_limit_remaining
      (check_rate_limit self false now client_id capacity refill_rate requested).1
      now client_id capacity refill_rate requested
    have hstore2 := check_rate_limit_store
      (check_rate_limit self false now client_id capacity refill_rate requested).1
      now client_id capacity refill_rate requested
    rw [hpost2] at hall2 hrem2 hstore2
    rw [if_neg hlt] at hrem2 hstore2
    have hretry1 := check_rate_limit_retry self now client_id capacity refill_rate requested
    have hretry2 := check_rate_limit_retry
      (check_rate_limit self false now client_id capacity refill_rate requested).1
      now client_id capacity refill_rate requested
    constructor
    · apply RateLimitResult_eq_of_fields
      · rw [hall2, hdenied]
        simpa using hlt
      · rw [hrem2, hrem]
      · rw [hretry2, hretry1, hrem2, hrem]
    · funext x
      by_cases hx : x = "rate_limit:" ++ client_id
      · rw [hx, hstore2, hstore]
      · have e2 : (check_rate_limit
            (check_rate_limit self false now client_id capacity refill_rate requested).1
            false now client_id capacity refill_rate requested).1.redis x
            = (check_rate_limit self false now client_id capacity refill_rate
                requested).1.redis x := by
          rw [check_rate_limit_ok
            (check_rate_limit self false now client_id capacity refill_rate requested).1]
          exact lua_script_store_other _ _ _ _ _ _ _ hx
        exact e2

/-- Witness for C14: an empty bucket (0 tokens, written at 0 s) asked twice for
1 token at 0 s. -/
theorem C14_denial_repeats_at_frozen_clock_witness :
    (check_rate_limit
        (check_rate_limit
          ⟨fun k => if k = "rate_limit:A" then some ⟨0, 0, some 3600⟩ else none, 0, 0, 0⟩
          false 0 "A" 10 1 1).1
        false 0 "A" 10 1 1).2
      = (check_rate_limit
          ⟨fun k => if k = "rate_limit:A" then some ⟨0, 0, some 3600⟩ else none, 0, 0, 0⟩
          false 0 "A" 10 1 1).2 :=
  (C14_denial_repeats_at_frozen_clock
    ⟨fun k => if k = "rate_limit:A" then some ⟨0, 0, some 3600⟩ else none, 0, 0, 0⟩
    false 0 "A" 10 1 1
    (by
      rw [check_rate_limit_allowed]
      simp only [String.reduceAppend, if_true, to_string_double_one, post_refill_some]
      norm_num)).1

/-! ## C15: the metrics snapshot -/

/-- C15: `get_metrics` returns the current values of `total_requests`,
`allowed_requests` and `denied_requests`, with `allow_rate = allowed / total`
when `total > 0` and `allow_rate = 1` when `total = 0`; after 3 admits and 2
denies (five one-token requests to a bucket of capacity 3 at a frozen clock)
it returns `total = 5`, `allowed = 3`, `denied = 2`, `allow_rate = 3/5`. -/
theorem C15_get_metrics (self : RateLimiter) :
    self.get_metrics.total_requests = self.total_requests
      ∧ self.get_metrics.allowed_requests = self.allowed_requests
      ∧ self.get_metrics.denied_requests = self.denied_requests
      ∧ self.get_metrics.allow_rate
        = (if 0 < self.total_requests
            then (self.allowed_requests : ℚ) / (self.total_requests : ℚ) else 1)
      ∧ (run ⟨Store.empty, 0, 0, 0⟩ (List.replicate 5 ⟨false, 0, "A", 3, 1, 1⟩)).get_metrics
        = { total_requests := 5, allowed_requests := 3, denied_requests := 2,
            allow_rate := 3 / 5 } := by
  refine ⟨rfl, rfl, rfl, rfl, ?_⟩
  simp only [List.replicate, run, call, check_rate_limit_ok, lua_script_result,
    lua_script_store_key, post_refill_some, post_refill_none, Store.empty,
    to_string_double_one, RateLimiter.get_metrics]
  norm_num [truncate, atomic_incr]

/-! ## C16: a request for 0 tokens -/

/-- C16: idempotent refill.  For every stored bucket with
`0 ≤ tokens_prev ≤ capacity`, unchanged capacity, `now_us ≥ last_refill_prev`
and a valid refill rate (the proof needs only `refill_rate ≥ 0`), a call with
`requested = 0` is admitted and never decreases the bucket: the stored tokens
are at least `tokens_prev`, the reported `remaining_tokens` is at least
`tokens_prev` truncated (what a call that stored `tokens_prev` reported), and
both stay at capacity when the bucket was full. -/
theorem C16_zero_request_never_decreases (self : RateLimiter) (now : ℤ)
    (client_id : String) (capacity : ℤ) (refill_rate : ℚ) (b : Bucket)
    (hb : self.redis ("rate_limit:" ++ client_id) = some b)
    (h0 : 0 ≤ b.tokens) (hcap : b.tokens ≤ capacity) (hclock : b.last_refill ≤ now)
    (hrate : 0 ≤ refill_rate) :
    (check_rate_limit self false now client_id capacity refill_rate 0).2.allowed = true
      ∧ (∃ b2, (check_rate_limit self false now client_id capacity refill_rate 0).1.redis
            ("rate_limit:" ++ client_id) = some b2
          ∧ b.tokens ≤ b2.tokens
          ∧ (b.tokens = capacity → b2.tokens = capacity))
      ∧ ((truncate b.tokens : ℤ) : ℚ)
          ≤ (check_rate_limit self false now client_id capacity refill_rate 0).2.remaining_tokens
      ∧ (b.tokens = capacity →
          (check_rate_limit self false now client_id capacity refill_rate
            0).2.remaining_tokens = capacity) := by
  have hinc : 0 ≤ ((now : ℚ) - b.last_refill) * to_string_double refill_rate / 1000000 :=
    div_nonneg (mul_nonneg (by linarith) (to_string_double_nonneg hrate)) (by norm_num)
  have hle := post_refill_le (self.redis ("rate_limit:" ++ client_id)) capacity
    (to_string_double refill_rate) now
  have hge : b.tokens ≤ post_refill (self.redis ("rate_limit:" ++ client_id)) capacity
      (to_string_double refill_rate) now := by
    rw [hb, post_refill_some]
    exact le_min hcap (by linarith)
  have hpos : ((0 : ℤ) : ℚ) ≤ post_refill (self.redis ("rate_limit:" ++ client_id)) capacity
      (to_string_double refill_rate) now := by
    push_cast
    linarith
  have hstore := check_rate_limit_store self now client_id capacity refill_rate 0
  have hrem := check_rate_limit_remaining self now client_id capacity refill_rate 0
  rw [if_pos hpos] at hstore hrem
  simp only [Int.cast_zero, sub_zero] at hstore hrem
  refine ⟨?_, ⟨_, hstore, hge, ?_⟩, ?_, ?_⟩
  · rw [check_rate_limit_allowed]
    simpa using hpos
  · intro hfull
    simp only
    linarith
  · rw [hrem]
    have hmono : truncate b.tokens
        ≤ truncate (post_refill (self.redis ("rate_limit:" ++ client_id)) capacity
            (to_string_double refill_rate) now) := by
      unfold truncate
      rw [if_pos h0, if_pos (le_trans h0 hge)]
      exact Int.floor_mono hge
    exact_mod_cast hmono
  · intro hfull
    have hpost : post_refill (self.redis ("rate_limit:" ++ client_id)) capacity
        (to_string_double refill_rate) now = (capacity : ℚ) := by linarith
    rw [hrem, hpost, truncate_intCast]

/-- Witness for C16: a bucket holding 5 of 10 tokens, evaluated 1 s later at 1
token per second with `requested = 0`. -/
theorem C16_zero_request_never_decreases_witness :
    (check_rate_limit
        ⟨fun k => if k = "rate_limit:A" then some ⟨5, 0, some 3600⟩ else none, 0, 0, 0⟩
        false 1000000 "A" 10 1 0).2.allowed = true
      ∧ ((truncate (Bucket.mk 5 0 (some 3600)).tokens : ℤ) : ℚ)
        ≤ (check_rate_limit
            ⟨fun k => if k = "rate_limit:A" then some ⟨5, 0, some 3600⟩ else none, 0, 0, 0⟩
            false 1000000 "A" 10 1 0).2.remaining_tokens := by
  have h := C16_zero_request_never_decreases
    ⟨fun k => if k = "rate_limit:A" then some ⟨5, 0, some 3600⟩ else none, 0, 0, 0⟩
    1000000 "A" 10 1 ⟨5, 0, some 3600⟩ (by simp) (by norm_num) (by norm_num) (by norm_num)
    (by norm_num)
  exact ⟨h.1, h.2.2.1⟩

/-! ## C17: status codes of the two `/check` handlers -/

/-- C17: for the decision `check_rate_limit` returns, `POST /check` (when the
body is read without an exception) and `GET /check` respond with status 200
when `allowed` is true and 429 when it is false; a fail-open decision is
therefore answered with 200; and the status of a rate-limit decision request
is always one of 200, 429 and 400. -/
theorem C17_status_codes (limiter : RateLimiter) (fault : Bool)
    (steady_now duration_us : ℤ) (body : CheckRequest)
    (request_body : Except String CheckRequest) :
    (post_check limiter fault steady_now duration_us (Except.ok body)).2.status
        = (if (check_rate_limit limiter fault steady_now (body.client_id.getD "default")
              (body.capacity.getD 100) (body.refill_rate.getD 10)
              (body.tokens.getD 1)).2.allowed = true
            then 200 else 429)
      ∧ (get_check limiter fault steady_now duration_us).2.status
        = (if (check_rate_limit limiter fault steady_now "load_test" 1000 100 1).2.allowed
              = true
            then 200 else 429)
      ∧ (post_check limiter true steady_now duration_us (Except.ok body)).2.status = 200
      ∧ (get_check limiter true steady_now duration_us).2.status = 200
      ∧ ((post_check limiter fault steady_now duration_us request_body).2.status = 200
          ∨ (post_check limiter fault steady_now duration_us request_body).2.status = 429
          ∨ (post_check limiter fault steady_now duration_us request_body).2.status = 400)
      ∧ ((get_check limiter fault steady_now duration_us).2.status = 200
          ∨ (get_check limiter fault steady_now duration_us).2.status = 429) := by
  refine ⟨rfl, rfl, ?_, ?_, ?_, ?_⟩
  · simp only [post_check, check_rate_limit_fault, if_true]
  · simp only [get_check, check_rate_limit_fault, if_true]
  · cases request_body with
    | error what => right; right; rfl
    | ok b =>
      simp only [post_check]
      split_ifs
      · left; rfl
      · right; left; rfl
  · simp only [get_check]
    split_ifs
    · left; rfl
    · right; rfl

/-! ## C18: the one key an evaluation writes -/

theorem bucket_key_injective (a b : String) (h : "rate_limit:" ++ a = "rate_limit:" ++ b) :
    a = b := by
  have h2 := congrArg String.data h
  simp only [String.data_append, List.append_cancel_left_eq] at h2
  exact String.ext h2

/-- C18: every successful evaluation for a client, admitted or denied, leaves
under the key `"rate_limit:" ++ client_id` a hash with the two fields
`tokens` and `last_refill` (the latter equal to `now`) and a TTL of 3600 s,
and changes no other key; distinct clients have distinct keys, so the stored
bucket of every other client is left unchanged. -/
theorem C18_writes_one_key (self : RateLimiter) (now : ℤ) (client_id : String)
    (capacity : ℤ) (refill_rate : ℚ) (requested : ℤ) :
    (∃ tokens : ℚ,
        (check_rate_limit self false now client_id capacity refill_rate requested).1.redis
          ("rate_limit:" ++ client_id)
          = some { tokens := tokens, last_refill := now, ttl := some 3600 })
      ∧ (∀ key : String, key ≠ "rate_limit:" ++ client_id →
          (check_rate_limit self false now client_id capacity refill_rate requested).1.redis key
            = self.redis key)
      ∧ (∀ other : String, other ≠ client_id →
          "rate_limit:" ++ other ≠ "rate_limit:" ++ client_id
            ∧ (check_rate_limit self false now client_id capacity refill_rate
                requested).1.redis ("rate_limit:" ++ other)
              = self.redis ("rate_limit:" ++ other)) := by
  have hother : ∀ key : String, key ≠ "rate_limit:" ++ client_id →
      (check_rate_limit self false now client_id capacity refill_rate requested).1.redis key
        = self.redis key := by
    intro key hkey
    rw [check_rate_limit_ok]
    exact lua_script_store_other _ _ _ _ _ _ _ hkey
  refine ⟨⟨_, check_rate_limit_store self now client_id capacity refill_rate requested⟩,
    hother, ?_⟩
  intro other hne
  have hk : "rate_limit:" ++ other ≠ "rate_limit:" ++ client_id :=
    fun h => hne (bucket_key_injective _ _ h)
  exact ⟨hk, hother _ hk⟩

/-! ## C19: retry-after on a denial from a full bucket -/

/-- C19, counterexample: `capacity = 5`, `requested = 10` against an absent
(full) bucket is denied with `remaining_tokens = 5`, and `retry_after_ms` is
`0`, not a positive number. -/
theorem C19_counterexample_retry_after_is_zero :
    (check_rate_limit ⟨Store.empty, 0, 0, 0⟩ false 0 "A" 5 10 10).2
      = { allowed := false, remaining_tokens := 5, retry_after_ms := 0 } := by
  have ht : truncate (5 : ℚ) = 5 := by
    have h := truncate_intCast 5
    simpa using h
  have hall := check_rate_limit_allowed ⟨Store.empty, 0, 0, 0⟩ 0 "A" 5 10 10
  have hrem := check_rate_limit_remaining ⟨Store.empty, 0, 0, 0⟩ 0 "A" 5 10 10
  have hretry := check_rate_limit_retry ⟨Store.empty, 0, 0, 0⟩ 0 "A" 5 10 10
  simp only [Store.empty, post_refill_none] at hall hrem
  have hall2 : (check_rate_limit ⟨Store.empty, 0, 0, 0⟩ false 0 "A" 5 10 10).2.allowed
      = false := by
    rw [hall]; norm_num
  have hrem2 : (check_rate_limit ⟨Store.empty, 0, 0, 0⟩ false 0 "A" 5 10
      10).2.remaining_tokens = 5 := by
    rw [hrem]; norm_num [ht]
  rw [hrem2, if_neg (by norm_num)] at hretry
  exact RateLimitResult_eq _ _ _ _ hall2 hrem2 hretry

/-- C19 (amended): on a denial from a full bucket (`requested > capacity`
while the post-refill tokens equal `capacity`), `check_rate_limit` reports
`remaining_tokens = capacity`, which is not below `capacity`, so the
retry-after formula returns `retry_after_ms = 0`. -/
theorem C19_full_bucket_denial_retry_after_zero (self : RateLimiter) (now : ℤ)
    (client_id : String) (capacity : ℤ) (refill_rate : ℚ) (requested : ℤ)
    (hover : capacity < requested)
    (hfull : post_refill (self.redis ("rate_limit:" ++ client_id)) capacity
      (to_string_double refill_rate) now = capacity) :
    (check_rate_limit self false now client_id capacity refill_rate requested).2
      = { allowed := false, remaining_tokens := capacity, retry_after_ms := 0 } := by
  have hlt : ¬ (requested : ℚ) ≤ (capacity : ℚ) := by
    have : (capacity : ℚ) < requested := by exact_mod_cast hover
    linarith
  have hall := check_rate_limit_allowed self now client_id capacity refill_rate requested
  have hrem := check_rate_limit_remaining self now client_id capacity refill_rate requested
  have hretry := check_rate_limit_retry self now client_id capacity refill_rate requested
  rw [hfull] at hall hrem
  rw [if_neg hlt, truncate_intCast] at hrem
  rw [hrem, if_neg (lt_irrefl _)] at hretry
  exact RateLimitResult_eq _ _ _ _ (by rw [hall]; simpa using hlt) hrem hretry

/-- Witness for C19: capacity 3, 4 tokens requested from an absent bucket. -/
theorem C19_full_bucket_denial_retry_after_zero_witness :
    (check_rate_limit ⟨Store.empty, 0, 0, 0⟩ false 0 "B" 3 1 4).2
      = { allowed := false, remaining_tokens := ((3 : ℤ) : ℚ), retry_after_ms := 0 } :=
  C19_full_bucket_denial_retry_after_zero ⟨Store.empty, 0, 0, 0⟩ 0 "B" 3 1 4 (by norm_num)
    (by simp [Store.empty, post_refill_none])

/-! ## C20: the reported remaining value is an integer -/

end CppRateLimiter
